import Mathlib

/-!
Verification development for the online-ludo server core.

Shallow embedding of the TypeScript sources:
  src/utils/gameRules.ts        (board rules engine)
  src/services/GameService.ts   (game state machine, reconnection service)
  src/services/MatchmakingService.ts
  src/handlers/connectionHandlers.ts and the reconnect_player handler

Conventions of the embedding:
  - The Redis store is modelled by passing the persisted GameState explicitly.
    Every service operation returns, besides its response fields, the state that
    was passed to saveGameState (field saved), or none when no save happened.
    A thrown exception (e.g. indexing undefined) is modelled as a failure with
    error "exception" and no save, since a throw aborts before any save.
  - Math.random dice outcomes are passed in as an explicit argument.
  - Date fields (startedAt, finishedAt, timestamps) are dropped: no claim in
    scope depends on wall-clock values, only on ordering, which list order keeps.
  - JS string comparison (===) is String equality; Record objects keyed by
    color become association lists preserving entry order.
-/

namespace Ludo

/-- models/Player.ts PlayerColor -/
inductive PlayerColor
  | red
  | blue
  | green
  | yellow
deriving DecidableEq

/-- models/Player.ts ConnectionStatus -/
inductive ConnectionStatus
  | connected
  | disconnected
  | reconnecting
deriving DecidableEq

/-- models/GameState.ts GamePhase -/
inductive GamePhase
  | waiting
  | rolling
  | moving
  | finished
deriving DecidableEq

/-- models/GameState.ts TokenPosition -/
structure TokenPosition where
  tokenId : String
  positionId : String
deriving DecidableEq

/-- models/Player.ts Player (fields used by the game core) -/
structure Player where
  playerId : String
  playerName : String
  color : PlayerColor
  connectionStatus : ConnectionStatus
  rank : Nat
deriving DecidableEq

/-- models/GameState.ts PlayerRank (finishedAt Date dropped) -/
structure PlayerRank where
  playerId : String
  rank : Nat
deriving DecidableEq

/-- models/GameState.ts GameState (startedAt and finishedAt Dates dropped) -/
structure GameState where
  roomCode : String
  players : List Player
  currentPlayerIndex : Nat
  diceValue : Option Nat
  tokenPositions : List (PlayerColor × List TokenPosition)
  phase : GamePhase
  rankings : List PlayerRank
  consecutiveSixes : Nat
deriving DecidableEq

/-! gameRules.ts: track topology literals -/

/-- gameRules.ts TOKEN_PATHS -/
def TOKEN_PATHS : PlayerColor → List String
  | PlayerColor.blue =>
    ["B04", "B03", "B02", "B01", "B00", "R52", "R42", "R32", "R22", "R12",
     "R02", "R01", "R00", "R10", "R20", "R30", "R40", "R50", "G05", "G04",
     "G03", "G02", "G01", "G00", "G10", "G20", "G21", "G22", "G23", "G24",
     "G25", "Y00", "Y10", "Y20", "Y30", "Y40", "Y50", "Y51", "Y52", "Y42",
     "Y32", "Y22", "Y12", "Y02", "B20", "B21", "B22", "B23", "B24", "B25",
     "B15", "B14", "B13", "B12", "B11", "B10", "BF"]
  | PlayerColor.green =>
    ["G21", "G22", "G23", "G24", "G25", "Y00", "Y10", "Y20", "Y30", "Y40",
     "Y50", "Y51", "Y52", "Y42", "Y32", "Y22", "Y12", "Y02", "B20", "B21",
     "B22", "B23", "B24", "B25", "B15", "B05", "B04", "B03", "B02", "B01",
     "B00", "R52", "R42", "R32", "R22", "R12", "R02", "R01", "R00", "R10",
     "R20", "R30", "R40", "R50", "G05", "G04", "G03", "G02", "G01", "G00",
     "G10", "G11", "G12", "G13", "G14", "G15", "GF"]
  | PlayerColor.red =>
    ["R10", "R20", "R30", "R40", "R50", "G05", "G04", "G03", "G02", "G01",
     "G00", "G10", "G20", "G21", "G22", "G23", "G24", "G25", "Y00", "Y10",
     "Y20", "Y30", "Y40", "Y50", "Y51", "Y52", "Y42", "Y32", "Y22", "Y12",
     "Y02", "B20", "B21", "B22", "B23", "B24", "B25", "B15", "B05", "B04",
     "B03", "B02", "B01", "B00", "R52", "R42", "R32", "R22", "R12", "R02",
     "R01", "R11", "R21", "R31", "R41", "R51", "RF"]
  | PlayerColor.yellow =>
    ["Y42", "Y32", "Y22", "Y12", "Y02", "B20", "B21", "B22", "B23", "B24",
     "B25", "B15", "B05", "B04", "B03", "B02", "B01", "B00", "R52", "R42",
     "R32", "R22", "R12", "R02", "R01", "R00", "R10", "R20", "R30", "R40",
     "R50", "G05", "G04", "G03", "G02", "G01", "G00", "G10", "G20", "G21",
     "G22", "G23", "G24", "G25", "Y00", "Y10", "Y20", "Y30", "Y40", "Y50",
     "Y51", "Y41", "Y31", "Y21", "Y11", "Y01", "YF"]

/-- gameRules.ts BASE_POSITIONS -/
def BASE_POSITIONS : PlayerColor → List String
  | PlayerColor.blue => ["B1", "B2", "B3", "B4"]
  | PlayerColor.green => ["G1", "G2", "G3", "G4"]
  | PlayerColor.red => ["R1", "R2", "R3", "R4"]
  | PlayerColor.yellow => ["Y1", "Y2", "Y3", "Y4"]

/-- gameRules.ts START_POSITIONS -/
def START_POSITIONS : PlayerColor → String
  | PlayerColor.blue => "B04"
  | PlayerColor.green => "G21"
  | PlayerColor.red => "R10"
  | PlayerColor.yellow => "Y42"

/-- gameRules.ts HOME_POSITIONS -/
def HOME_POSITIONS : PlayerColor → String
  | PlayerColor.blue => "BF"
  | PlayerColor.green => "GF"
  | PlayerColor.red => "RF"
  | PlayerColor.yellow => "YF"

/-- gameRules.ts SAFE_SPOTS -/
def SAFE_SPOTS : List String :=
  ["B04", "B23", "R22", "R10", "G02", "G21", "Y30", "Y42"]

/-- JS String.prototype.endsWith, implemented over the character list so that
the kernel can evaluate it on literals. -/
def strEndsWith (s suffix : String) : Bool :=
  suffix.toList.isSuffixOf s.toList

/-- gameRules.ts isTokenInBase: length 2 and not ending in F -/
def isTokenInBase (positionId : String) : Bool :=
  positionId.length == 2 && !(strEndsWith positionId "F")

/-- gameRules.ts isTokenOnBoard -/
def isTokenOnBoard (positionId : String) : Bool :=
  positionId.length == 3

/-- gameRules.ts isTokenInHome -/
def isTokenInHome (positionId : String) : Bool :=
  strEndsWith positionId "F"

/-- gameRules.ts getTokenPath -/
def getTokenPath (color : PlayerColor) : List String :=
  TOKEN_PATHS color

/-- JS Array.prototype.indexOf on a string array: first index, none for -1. -/
def indexOfPos : List String → String → Option Nat
  | [], _ => none
  | x :: xs, p => if x = p then some 0 else (indexOfPos xs p).map (· + 1)

/-- Return shape of gameRules.ts canMoveToken -/
structure MoveValidation where
  valid : Bool
  targetPosition : Option String := none
  reason : Option String := none
deriving DecidableEq

/-- gameRules.ts canMoveToken -/
def canMoveToken (tokenPosition : String) (diceValue : Nat) (color : PlayerColor) :
    MoveValidation :=
  if isTokenInBase tokenPosition then
    if diceValue = 6 then
      { valid := true, targetPosition := some (START_POSITIONS color) }
    else
      { valid := false, reason := some "Need a 6 to move out of base" }
  else
    let path := getTokenPath color
    match indexOfPos path tokenPosition with
    | none => { valid := false, reason := some "Invalid token position" }
    | some currentIndex =>
      let targetIndex := currentIndex + diceValue
      if path.length ≤ targetIndex then
        { valid := false, reason := some "Move exceeds path length" }
      else
        { valid := true, targetPosition := path.get? targetIndex }

/-- gameRules.ts isSafeSpot -/
def isSafeSpot (positionId : String) : Bool :=
  SAFE_SPOTS.contains positionId

/-- Return shape of gameRules.ts detectCollision -/
structure CollisionResult where
  captured : Bool
  capturedTokens : List TokenPosition
deriving DecidableEq

/-- gameRules.ts detectCollision: on a non-safe target, collect every token of
every non-attacker color sitting exactly on the target cell, in entry order. -/
def detectCollision (targetPosition : String) (attackerColor : PlayerColor)
    (allTokenPositions : List (PlayerColor × List TokenPosition)) : CollisionResult :=
  if isSafeSpot targetPosition then
    { captured := false, capturedTokens := [] }
  else
    let capturedTokens :=
      allTokenPositions.flatMap fun entry =>
        if entry.1 = attackerColor then []
        else entry.2.filter fun t => decide (t.positionId = targetPosition)
    { captured := decide (0 < capturedTokens.length), capturedTokens := capturedTokens }

/-- gameRules.ts checkWinCondition: all four tokens on the home cell -/
def checkWinCondition (color : PlayerColor) (tokenPositions : List TokenPosition) : Bool :=
  let homePosition := HOME_POSITIONS color
  let tokensInHome := tokenPositions.filter fun t => decide (t.positionId = homePosition)
  tokensInHome.length == 4

/-- gameRules.ts getBasePosition: parseInt of the last character of the token id
selects the base slot (ordinal mapping). Out-of-range ordinals, which in JS
yield undefined, default to the empty string. -/
def getBasePosition (tokenId : String) (color : PlayerColor) : String :=
  let basePositions := BASE_POSITIONS color
  let tokenNumber := (tokenId.toList.getLastD ' ').toNat - '0'.toNat
  basePositions.getD (tokenNumber - 1) ""

/-- Color prefix letter, as in 'red'.charAt(0).toUpperCase() -/
def colorPrefix : PlayerColor → String
  | PlayerColor.red => "R"
  | PlayerColor.blue => "B"
  | PlayerColor.green => "G"
  | PlayerColor.yellow => "Y"

/-- JS String.prototype.startsWith, implemented over the character list so
that the kernel can evaluate it on literals. -/
def strStartsWith (s pre : String) : Bool :=
  pre.toList.isPrefixOf s.toList

/-- gameRules.ts isValidTokenId -/
def isValidTokenId (tokenId : String) (color : PlayerColor) : Bool :=
  strStartsWith tokenId (colorPrefix color ++ "T") && tokenId.length == 3

/-! GameService.ts -/

/-- JS object lookup tokenPositions[color]: value at the (unique) key, none when
the key is absent. -/
def lookupTokens (tps : List (PlayerColor × List TokenPosition)) (color : PlayerColor) :
    Option (List TokenPosition) :=
  (tps.find? fun entry => decide (entry.1 = color)).map Prod.snd

/-- JS find plus in-place positionId assignment: update the first token with the
given id, leave everything else untouched. -/
def setTokenPos : List TokenPosition → String → String → List TokenPosition
  | [], _, _ => []
  | t :: ts, tokenId, pos =>
    if t.tokenId = tokenId then { t with positionId := pos } :: ts
    else t :: setTokenPos ts tokenId pos

/-- In-place update of tokenPositions[color]: rewrite the token inside the entry
for that color (JS object keys are unique, first entry). -/
def updateTokensAt :
    List (PlayerColor × List TokenPosition) → PlayerColor → String → String →
      List (PlayerColor × List TokenPosition)
  | [], _, _, _ => []
  | (c, toks) :: rest, color, tokenId, pos =>
    if c = color then (c, setTokenPos toks tokenId pos) :: rest
    else (c, toks) :: updateTokensAt rest color tokenId pos

/-- GameService.moveToken capture loop body for one captured token: scan the
color entries in order, and in the first entry containing the token id set that
token back to its base slot (findIndex, assign, break). Returns the updated
positions and whether the token was found. -/
def sendTokenToBase :
    List (PlayerColor × List TokenPosition) → String →
      List (PlayerColor × List TokenPosition) × Bool
  | [], _ => ([], false)
  | (c, toks) :: rest, tokenId =>
    if toks.any fun t => decide (t.tokenId = tokenId) then
      ((c, setTokenPos toks tokenId (getBasePosition tokenId c)) :: rest, true)
    else
      let r := sendTokenToBase rest tokenId
      ((c, toks) :: r.1, r.2)

/-- GameService.moveToken capture loop over all captured tokens; the reported
capturedTokenId is the last one found (JS overwrites the variable). -/
def applyCaptures (capturedTokens : List TokenPosition)
    (tps : List (PlayerColor × List TokenPosition)) :
    List (PlayerColor × List TokenPosition) × Option String :=
  capturedTokens.foldl
    (fun acc ct =>
      let r := sendTokenToBase acc.1 ct.tokenId
      (r.1, if r.2 then some ct.tokenId else acc.2))
    (tps, none)

/-- players[idx].rank = r (in-place on the list) -/
def setPlayerRankAt : List Player → Nat → Nat → List Player
  | [], _, _ => []
  | p :: ps, 0, r => { p with rank := r } :: ps
  | p :: ps, i + 1, r => p :: setPlayerRankAt ps i r

/-- rank assignment through the object reference returned by players.find:
update the first player with the given id. -/
def setPlayerRankByPid : List Player → String → Nat → List Player
  | [], _, _ => []
  | p :: ps, pid, r =>
    if p.playerId = pid then { p with rank := r } :: ps
    else p :: setPlayerRankByPid ps pid r

/-- Player rank at an index (players[idx].rank); out of range reads 0, the
in-range case being the only one the source reaches. -/
def rankAt (players : List Player) (idx : Nat) : Nat :=
  ((players.get? idx).map Player.rank).getD 0

/-- GameService.switchTurn do-while scan: step to (idx + 1) mod n, repeat while
the player there has rank > 0 and we are not back at the starting index. The
fuel argument bounds the iteration count; the source loop has none, and the
termination claim shows fuel players.length is never exhausted. -/
def switchLoop (players : List Player) (current : Nat) : Nat → Nat → Nat
  | idx, 0 => (idx + 1) % players.length
  | idx, fuel + 1 =>
    let next := (idx + 1) % players.length
    if 0 < rankAt players next ∧ next ≠ current then switchLoop players current next fuel
    else next

/-- Index selected by the GameService.switchTurn scan. -/
def nextPlayerIndex (players : List Player) (current : Nat) : Nat :=
  switchLoop players current current players.length

/-- GameService.switchTurn: advance to the scan result, clear dice, reset to
ROLLING, reset the consecutive-six counter, persist. -/
def switchTurn (gs : GameState) : GameState :=
  { gs with
    currentPlayerIndex := nextPlayerIndex gs.players gs.currentPlayerIndex
    diceValue := none
    phase := GamePhase.rolling
    consecutiveSixes := 0 }

/-- GameService.checkValidMoves body over the already-fetched token list (the
tokenPositions[color] lookup is hoisted to the caller so that a missing entry
models the JS exception instead of a normal return). -/
def checkValidMoves (playerTokens : List TokenPosition) (color : PlayerColor)
    (diceValue : Nat) : Bool :=
  playerTokens.any fun t => (canMoveToken t.positionId diceValue color).valid

/-- Response of GameService.rollDice plus the state handed to saveGameState. -/
structure RollDiceRes where
  success : Bool
  diceValue : Option Nat := none
  error : Option String := none
  skipTurn : Option Bool := none
  saved : Option GameState := none
deriving DecidableEq

/-- GameService.rollDice with the random outcome passed in. On the two skip
paths the source calls switchTurn, which re-reads the stored state, so the
in-memory edits made before the call are discarded and the persisted state is
switchTurn of the original stored state. -/
def rollDice (gs : GameState) (playerId : String) (diceValue : Nat) : RollDiceRes :=
  match gs.players.get? gs.currentPlayerIndex with
  | none => { success := false, error := some "exception" }
  | some currentPlayer =>
    if currentPlayer.playerId ≠ playerId then
      { success := false, error := some "Not your turn" }
    else if gs.phase ≠ GamePhase.rolling then
      { success := false, error := some "Cannot roll dice in current phase" }
    else
      let consecutiveSixes := if diceValue = 6 then gs.consecutiveSixes + 1 else 0
      if consecutiveSixes = 3 then
        { success := true, diceValue := some diceValue, skipTurn := some true,
          saved := some (switchTurn gs) }
      else
        match lookupTokens gs.tokenPositions currentPlayer.color with
        | none => { success := false, error := some "exception" }
        | some playerTokens =>
          if checkValidMoves playerTokens currentPlayer.color diceValue then
            { success := true, diceValue := some diceValue, skipTurn := some false,
              saved := some { gs with
                consecutiveSixes := consecutiveSixes
                diceValue := some diceValue
                phase := GamePhase.moving } }
          else
            { success := true, diceValue := some diceValue, skipTurn := some true,
              saved := some (switchTurn gs) }

/-- models/Token.ts MoveResult (success field folded into the response) -/
structure MoveResult where
  tokenId : String
  fromPosition : String
  toPosition : String
  capturedTokenId : Option String
  extraTurn : Bool
deriving DecidableEq

/-- Response of GameService.moveToken plus the state handed to saveGameState. -/
structure MoveTokenRes where
  success : Bool
  error : Option String := none
  result : Option MoveResult := none
  saved : Option GameState := none
deriving DecidableEq

/-- GameService.moveToken lines 300-318: when the win brings the finished
count to players.length - 1, find the one player not yet in rankings, append
it with the last rank, set its rank, and set phase to FINISHED. -/
def finishGame (gs1a : GameState) : GameState :=
  let gs1b : GameState :=
    match gs1a.players.find? (fun p =>
        !(gs1a.rankings.any fun r => decide (r.playerId = p.playerId))) with
    | some lastPlayer =>
      { gs1a with
        rankings := gs1a.rankings ++
          [{ playerId := lastPlayer.playerId, rank := gs1a.players.length }]
        players := setPlayerRankByPid gs1a.players lastPlayer.playerId
          gs1a.players.length }
    | none => gs1a
  { gs1b with phase := GamePhase.finished }

/-- GameService.moveToken lines 288-319: on a win append the ranking entry in
finish order, set the current player rank, and close the game when all but one
player has finished. -/
def recordWin (gs1 : GameState) (currentPlayer : Player) : GameState :=
  let rank := gs1.rankings.length + 1
  let rankings1 := gs1.rankings ++ [{ playerId := currentPlayer.playerId, rank := rank }]
  let players1 := setPlayerRankAt gs1.players gs1.currentPlayerIndex rank
  let gs1a := { gs1 with rankings := rankings1, players := players1 }
  if gs1a.rankings.length = gs1a.players.length - 1 then finishGame gs1a else gs1a

/-- GameService.moveToken lines 254-283: token position update plus collision
handling, returning the resulting token positions and the reported captured
token id (none when nothing was captured). -/
def moveCapRes (gs : GameState) (color : PlayerColor) (tokenId targetPositionId : String) :
    List (PlayerColor × List TokenPosition) × Option String :=
  let tps1 := updateTokensAt gs.tokenPositions color tokenId targetPositionId
  let collision := detectCollision targetPositionId color tps1
  if collision.captured then applyCaptures collision.capturedTokens tps1
  else (tps1, none)

/-- GameService.moveToken lines 252-352: everything after validation. Applies
the move, resolves captures, checks the win condition, updates rankings, and
computes the one persisted state. Note that the phase assignment to FINISHED in
the win branch is unconditionally overwritten by the extra-turn reset to
ROLLING before the save, exactly as in the source. -/
def applyMove (gs : GameState) (currentPlayer : Player) (diceValue : Nat)
    (tokenId targetPositionId fromPosition : String) : MoveTokenRes :=
  let tps1 := updateTokensAt gs.tokenPositions currentPlayer.color tokenId targetPositionId
  let collision := detectCollision targetPositionId currentPlayer.color tps1
  let capRes := moveCapRes gs currentPlayer.color tokenId targetPositionId
  let tps2 := capRes.1
  let capturedTokenId := capRes.2
  let playerTokens2 := (lookupTokens tps2 currentPlayer.color).getD []
  let hasWon := checkWinCondition currentPlayer.color playerTokens2
  let gs1 := { gs with tokenPositions := tps2 }
  let gs2 := if hasWon then recordWin gs1 currentPlayer else gs1
  let extraTurn := decide (diceValue = 6) || collision.captured
  let final :=
    if extraTurn then { gs2 with phase := GamePhase.rolling, diceValue := none }
    else { gs2 with phase := GamePhase.rolling, diceValue := none }
  { success := true
    result := some { tokenId := tokenId, fromPosition := fromPosition,
                     toPosition := targetPositionId,
                     capturedTokenId := capturedTokenId, extraTurn := extraTurn }
    saved := some final }

/-- GameService.moveToken: validations, then applyMove. Failure paths return
before any mutation and never save. -/
def moveToken (gs : GameState) (playerId tokenId targetPositionId : String) :
    MoveTokenRes :=
  match gs.players.get? gs.currentPlayerIndex with
  | none => { success := false, error := some "exception" }
  | some currentPlayer =>
    if currentPlayer.playerId ≠ playerId then
      { success := false, error := some "Not your turn" }
    else if gs.phase ≠ GamePhase.moving then
      { success := false, error := some "Cannot move token in current phase" }
    else
      match gs.diceValue with
      | none => { success := false, error := some "Dice not rolled" }
      | some diceValue =>
        if isValidTokenId tokenId currentPlayer.color = false then
          { success := false, error := some "Invalid token" }
        else
          match lookupTokens gs.tokenPositions currentPlayer.color with
          | none => { success := false, error := some "exception" }
          | some playerTokens =>
            match playerTokens.find? (fun t => decide (t.tokenId = tokenId)) with
            | none => { success := false, error := some "Token not found" }
            | some token =>
              let moveValidation :=
                canMoveToken token.positionId diceValue currentPlayer.color
              if moveValidation.valid = false then
                { success := false, error := moveValidation.reason }
              else if moveValidation.targetPosition ≠ some targetPositionId then
                { success := false, error := some "Invalid target position" }
              else
                applyMove gs currentPlayer diceValue tokenId targetPositionId
                  token.positionId

/-! MatchmakingService.ts -/

/-- MatchmakingService.ts QueuedPlayer (the timestamp is dropped; the queue is
kept as a list already sorted oldest first, which is what getQueuedPlayers
returns from the sorted set). -/
structure QueuedPlayer where
  playerId : String
  playerName : String
  preferredPlayers : Nat
deriving DecidableEq

/-- MatchmakingService.findMatchBySize, including the redundant eligibility
condition preferredPlayers >= size || preferredPlayers === size verbatim. -/
def findMatchBySize (players : List QueuedPlayer) (size : Nat) :
    Option (List QueuedPlayer) :=
  if players.length < size then none
  else
    let eligiblePlayers := players.filter fun p =>
      decide (size ≤ p.preferredPlayers) || decide (p.preferredPlayers = size)
    if size ≤ eligiblePlayers.length then some (eligiblePlayers.take size)
    else none

/-- MatchmakingService.findMatch: require at least two queued players, then try
group sizes 4, 3, 2 in that order. -/
def findMatch (queuedPlayers : List QueuedPlayer) : Option (List QueuedPlayer) :=
  if queuedPlayers.length < 2 then none
  else
    match findMatchBySize queuedPlayers 4 with
    | some fourPlayerMatch => some fourPlayerMatch
    | none =>
      match findMatchBySize queuedPlayers 3 with
      | some threePlayerMatch => some threePlayerMatch
      | none => findMatchBySize queuedPlayers 2

/-! ReconnectionService.ts and the reconnect_player handler.

The world state carries the per-instance timer map of the module-level
ReconnectionService singleton created in connectionHandlers.ts (the instance
whose handleDisconnection arms the grace-period timer), the Redis-backed
session store shared by every instance, and the game state. The reconnect
handler in the server entry file constructs a fresh ReconnectionService with
require and new, so its cancelDisconnectionTimer call operates on that fresh
instance timer map, not on the singleton map; the model reproduces this by
applying cancelTimer to an empty map and keeping the singleton map intact. -/

/-- models/Player.ts PlayerSession (lastActivity Date dropped) -/
structure PlayerSession where
  playerId : String
  playerName : String
  roomCode : Option String
  socketId : String
deriving DecidableEq

/-- Process- and store-level state relevant to disconnection and reconnection. -/
structure ReconnWorld where
  singletonTimers : List String
  sessions : List PlayerSession
  game : GameState
deriving DecidableEq

/-- ReconnectionService.cancelDisconnectionTimer on a given timer map: delete
the pending timer for the player if present. -/
def cancelDisconnectionTimer (timers : List String) (playerId : String) :
    List String :=
  timers.filter fun t => decide (t ≠ playerId)

/-- ReconnectionService.getPlayerSession: session keyed by player id. -/
def getPlayerSession (sessions : List PlayerSession) (playerId : String) :
    Option PlayerSession :=
  sessions.find? fun s => decide (s.playerId = playerId)

/-- ReconnectionService.hasActiveSession: a session exists and its stored room
code matches the room being reconnected into. -/
def hasActiveSession (sessions : List PlayerSession) (playerId roomCode : String) :
    Bool :=
  match getPlayerSession sessions playerId with
  | some session => decide (session.roomCode = some roomCode)
  | none => false

/-- ReconnectionService.updateSocketId: rebind the stored session to the new
socket id, if a session exists. -/
def updateSocketId (sessions : List PlayerSession) (playerId newSocketId : String) :
    List PlayerSession :=
  sessions.map fun s =>
    if s.playerId = playerId then { s with socketId := newSocketId } else s

/-- ReconnectionService.updatePlayerConnectionStatus: set the connection status
of the player inside the game state, if the game and player exist. -/
def updatePlayerConnectionStatus (gs : GameState) (playerId : String)
    (status : ConnectionStatus) : GameState :=
  { gs with players := gs.players.map fun p =>
      if p.playerId = playerId then { p with connectionStatus := status } else p }

/-- ReconnectionService.handleDisconnection on the connectionHandlers singleton:
mark the player DISCONNECTED, replace any existing timer for the player, and arm
the grace-period timer on the singleton timer map. -/
def handleDisconnection (w : ReconnWorld) (playerId : String) : ReconnWorld :=
  { w with
    game := updatePlayerConnectionStatus w.game playerId ConnectionStatus.disconnected
    singletonTimers := playerId :: cancelDisconnectionTimer w.singletonTimers playerId }

/-- ReconnectionService.handlePermanentDisconnection, the body of the grace
timer: filter the player out of the players list, reindex currentPlayerIndex if
it points past the new end, delete the session, and drop the timer entry. Only
fires while the timer is still armed on the singleton. -/
def fireDisconnectTimer (w : ReconnWorld) (playerId : String) : ReconnWorld :=
  if w.singletonTimers.contains playerId then
    let players1 := w.game.players.filter fun p => decide (p.playerId ≠ playerId)
    let idx1 := if players1.length ≤ w.game.currentPlayerIndex then 0
                else w.game.currentPlayerIndex
    { singletonTimers := cancelDisconnectionTimer w.singletonTimers playerId
      sessions := w.sessions.filter fun s => decide (s.playerId ≠ playerId)
      game := { w.game with players := players1, currentPlayerIndex := idx1 } }
  else w

/-- Response of the reconnect_player socket handler. -/
structure ReconnectRes where
  success : Bool
  error : Option String := none
deriving DecidableEq

/-- The reconnect_player handler in the server entry file: check the session,
then cancel the disconnection timer on a freshly constructed ReconnectionService
(whose timer map is empty, so the singleton map holding the armed timer is not
touched), rebind the session socket id, and set the status back to CONNECTED. -/
def reconnectPlayer (w : ReconnWorld) (playerId roomCode newSocketId : String) :
    ReconnectRes × ReconnWorld :=
  if hasActiveSession w.sessions playerId roomCode then
    let freshInstanceTimers : List String := []
    let _ := cancelDisconnectionTimer freshInstanceTimers playerId
    let w1 :=
      { w with
        sessions := updateSocketId w.sessions playerId newSocketId
        game := updatePlayerConnectionStatus w.game playerId
          ConnectionStatus.connected }
    ({ success := true }, w1)
  else
    ({ success := false, error := some "No active session found for this room" }, w)

/-! Specification-level helper functions (observers used only to state
properties; they are not translations of source functions). -/

/-- The state applyMove hands to saveGameState, written as a standalone
function of its inputs (same computation as inside applyMove). -/
def movedSavedState (gs : GameState) (cp : Player) (tid tgt : String) : GameState :=
  let tps2 := (moveCapRes gs cp.color tid tgt).1
  let gs1 := { gs with tokenPositions := tps2 }
  let gs2 := if checkWinCondition cp.color ((lookupTokens tps2 cp.color).getD [])
             then recordWin gs1 cp else gs1
  { gs2 with phase := GamePhase.rolling, diceValue := none }

/-- The MoveResult applyMove reports, as a standalone function. -/
def movedResult (gs : GameState) (cp : Player) (d : Nat) (tid tgt fr : String) :
    MoveResult :=
  { tokenId := tid, fromPosition := fr, toPosition := tgt,
    capturedTokenId := (moveCapRes gs cp.color tid tgt).2,
    extraTurn := decide (d = 6) || (detectCollision tgt cp.color
      (updateTokensAt gs.tokenPositions cp.color tid tgt)).captured }

/-- All token ids across all color entries, in entry order. -/
def allTokenIds (tps : List (PlayerColor × List TokenPosition)) : List String :=
  tps.flatMap fun e => e.2.map TokenPosition.tokenId

/-- The token-position component of the capture loop, with the captured-id
bookkeeping dropped. -/
def applyCapturesTps (capturedTokens : List TokenPosition)
    (tps : List (PlayerColor × List TokenPosition)) :
    List (PlayerColor × List TokenPosition) :=
  capturedTokens.foldl (fun acc ct => (sendTokenToBase acc ct.tokenId).1) tps

/-- Position of the first token with the given id, scanning entries in order. -/
def posOf : List (PlayerColor × List TokenPosition) → String → Option String
  | [], _ => none
  | (_, toks) :: rest, tid =>
    match toks.find? (fun t => decide (t.tokenId = tid)) with
    | some t => some t.positionId
    | none => posOf rest tid

/-- Color of the first entry containing the given token id. -/
def ownerColor : List (PlayerColor × List TokenPosition) → String → Option PlayerColor
  | [], _ => none
  | (c, toks) :: rest, tid =>
    if toks.any (fun t => decide (t.tokenId = tid)) then some c
    else ownerColor rest tid

/-! Concrete states used by the closed theorems and witnesses. -/

def bluePlayer : Player :=
  { playerId := "p0", playerName := "Alice", color := PlayerColor.blue,
    connectionStatus := ConnectionStatus.connected, rank := 0 }

def redPlayer : Player :=
  { playerId := "p1", playerName := "Bob", color := PlayerColor.red,
    connectionStatus := ConnectionStatus.connected, rank := 0 }

/-- Two-player game, blue to move with dice 1; BT4 sits one step short of home
and the other three blue tokens are already home. -/
def c1FinishState : GameState :=
  { roomCode := "ROOM01"
    players := [bluePlayer, redPlayer]
    currentPlayerIndex := 0
    diceValue := some 1
    tokenPositions :=
      [(PlayerColor.blue, [⟨"BT1", "BF"⟩, ⟨"BT2", "BF"⟩, ⟨"BT3", "BF"⟩, ⟨"BT4", "B10"⟩]),
       (PlayerColor.red, [⟨"RT1", "R1"⟩, ⟨"RT2", "R2"⟩, ⟨"RT3", "R3"⟩, ⟨"RT4", "R4"⟩])]
    phase := GamePhase.moving
    rankings := []
    consecutiveSixes := 0 }

/-- Two-player game, blue to roll; every blue token is too close to home for
any dice value to produce a legal move, and none is in base. -/
def c2NoMoveState : GameState :=
  { roomCode := "ROOM01"
    players := [bluePlayer, redPlayer]
    currentPlayerIndex := 0
    diceValue := none
    tokenPositions :=
      [(PlayerColor.blue, [⟨"BT1", "BF"⟩, ⟨"BT2", "BF"⟩, ⟨"BT3", "BF"⟩, ⟨"BT4", "B10"⟩]),
       (PlayerColor.red, [⟨"RT1", "R1"⟩, ⟨"RT2", "R2"⟩, ⟨"RT3", "R3"⟩, ⟨"RT4", "R4"⟩])]
    phase := GamePhase.rolling
    rankings := []
    consecutiveSixes := 0 }

/-- Queue of two players, the older one preferring four-player games and the
newer one preferring three-player games. -/
def queueA : QueuedPlayer := { playerId := "A", playerName := "A", preferredPlayers := 4 }

def queueB : QueuedPlayer := { playerId := "B", playerName := "B", preferredPlayers := 3 }

/-- Two-player game, blue to roll with two consecutive sixes already on the
counter. -/
def c6SixesState : GameState :=
  { roomCode := "ROOM01"
    players := [bluePlayer, redPlayer]
    currentPlayerIndex := 0
    diceValue := none
    tokenPositions :=
      [(PlayerColor.blue, [⟨"BT1", "B00"⟩, ⟨"BT2", "B1"⟩, ⟨"BT3", "B2"⟩, ⟨"BT4", "B3"⟩]),
       (PlayerColor.red, [⟨"RT1", "R1"⟩, ⟨"RT2", "R2"⟩, ⟨"RT3", "R3"⟩, ⟨"RT4", "R4"⟩])]
    phase := GamePhase.rolling
    rankings := []
    consecutiveSixes := 2 }

/-- Two-player game, blue to move with dice 1; BT1 stands on B00 one step
before R52, where red RT1 is sitting (R52 is not a safe spot). -/
def c7CaptureState : GameState :=
  { roomCode := "ROOM01"
    players := [bluePlayer, redPlayer]
    currentPlayerIndex := 0
    diceValue := some 1
    tokenPositions :=
      [(PlayerColor.blue, [⟨"BT1", "B00"⟩, ⟨"BT2", "B1"⟩, ⟨"BT3", "B2"⟩, ⟨"BT4", "B3"⟩]),
       (PlayerColor.red, [⟨"RT1", "R52"⟩, ⟨"RT2", "R2"⟩, ⟨"RT3", "R3"⟩, ⟨"RT4", "R4"⟩])]
    phase := GamePhase.moving
    rankings := []
    consecutiveSixes := 0 }

/-- World before the disconnection of player p1: a running two-player game with
a stored session for p1, no pending timers. -/
def c4World : ReconnWorld :=
  { singletonTimers := []
    sessions :=
      [{ playerId := "p1", playerName := "Bob", roomCode := some "ROOM01",
         socketId := "sock1" }]
    game := c1FinishState }

/-! Theorems -/

/-! Lemmas about the switchTurn scan. The scan visits (idx + s) % n for
s = 1, 2, ...; each lemma carries an explicit step count t at which a stopping
index (rank 0 or the starting index) is reached. -/

theorem switchLoop_zero (players : List Player) (c idx : Nat) :
    switchLoop players c idx 0 = (idx + 1) % players.length := rfl

theorem switchLoop_succ (players : List Player) (c idx fuel : Nat) :
    switchLoop players c idx (fuel + 1)
      = if 0 < rankAt players ((idx + 1) % players.length)
            ∧ (idx + 1) % players.length ≠ c
        then switchLoop players c ((idx + 1) % players.length) fuel
        else (idx + 1) % players.length := rfl

theorem add_mod_ne (n c s : Nat) (hc : c < n) (h1 : 1 ≤ s) (h2 : s < n) :
    (c + s) % n ≠ c := by
  intro h
  rcases Nat.lt_or_ge (c + s) n with hlt | hge
  · rw [Nat.mod_eq_of_lt hlt] at h
    omega
  · have hsub : (c + s) % n = (c + s - n) % n := Nat.mod_eq_sub_mod hge
    have hlt2 : c + s - n < n := by omega
    rw [hsub, Nat.mod_eq_of_lt hlt2] at h
    omega

theorem switchLoop_lt (players : List Player) (c : Nat) (hn : 0 < players.length) :
    ∀ fuel idx, switchLoop players c idx fuel < players.length := by
  intro fuel
  induction fuel with
  | zero => intro idx; rw [switchLoop_zero]; exact Nat.mod_lt _ hn
  | succ fuel ih =>
    intro idx
    rw [switchLoop_succ]
    split
    · exact ih _
    · exact Nat.mod_lt _ hn

theorem switchLoop_fuel_congr (players : List Player) (c : Nat) :
    ∀ fuel fuel' idx t, 1 ≤ t → t ≤ fuel + 1 → t ≤ fuel' + 1 →
      (rankAt players ((idx + t) % players.length) = 0
        ∨ (idx + t) % players.length = c) →
      switchLoop players c idx fuel = switchLoop players c idx fuel' := by
  intro fuel
  induction fuel with
  | zero =>
    intro fuel' idx t h1 h2 h3 hstop
    have ht : t = 1 := by omega
    subst ht
    cases fuel' with
    | zero => rfl
    | succ f' =>
      rw [switchLoop_zero, switchLoop_succ]
      have hcond : ¬(0 < rankAt players ((idx + 1) % players.length)
          ∧ (idx + 1) % players.length ≠ c) := by
        rcases hstop with h | h
        · intro hx; omega
        · intro hx; exact hx.2 h
      rw [if_neg hcond]
  | succ fuel ih =>
    intro fuel' idx t h1 h2 h3 hstop
    cases fuel' with
    | zero =>
      have ht : t = 1 := by omega
      subst ht
      rw [switchLoop_zero, switchLoop_succ]
      have hcond : ¬(0 < rankAt players ((idx + 1) % players.length)
          ∧ (idx + 1) % players.length ≠ c) := by
        rcases hstop with h | h
        · intro hx; omega
        · intro hx; exact hx.2 h
      rw [if_neg hcond]
    | succ f' =>
      rw [switchLoop_succ, switchLoop_succ]
      by_cases hcond : 0 < rankAt players ((idx + 1) % players.length)
          ∧ (idx + 1) % players.length ≠ c
      · rw [if_pos hcond, if_pos hcond]
        have ht2 : 2 ≤ t := by
          by_contra hx
          have ht1 : t = 1 := by omega
          subst ht1
          rcases hstop with h | h
          · omega
          · exact hcond.2 h
        have hshift : ((idx + 1) % players.length + (t - 1)) % players.length
            = (idx + t) % players.length := by
          rw [Nat.mod_add_mod]
          congr 1
          omega
        exact ih f' ((idx + 1) % players.length) (t - 1) (by omega) (by omega)
          (by omega) (by rw [hshift]; exact hstop)
      · rw [if_neg hcond, if_neg hcond]

theorem switchLoop_stop (players : List Player) (c : Nat) :
    ∀ fuel idx t, 1 ≤ t → t ≤ fuel + 1 →
      (rankAt players ((idx + t) % players.length) = 0
        ∨ (idx + t) % players.length = c) →
      rankAt players (switchLoop players c idx fuel) = 0
        ∨ switchLoop players c idx fuel = c := by
  intro fuel
  induction fuel with
  | zero =>
    intro idx t h1 h2 hstop
    have ht : t = 1 := by omega
    subst ht
    rw [switchLoop_zero]
    exact hstop
  | succ fuel ih =>
    intro idx t h1 h2 hstop
    rw [switchLoop_succ]
    by_cases hcond : 0 < rankAt players ((idx + 1) % players.length)
        ∧ (idx + 1) % players.length ≠ c
    · rw [if_pos hcond]
      have ht2 : 2 ≤ t := by
        by_contra hx
        have ht1 : t = 1 := by omega
        subst ht1
        rcases hstop with h | h
        · omega
        · exact hcond.2 h
      have hshift : ((idx + 1) % players.length + (t - 1)) % players.length
          = (idx + t) % players.length := by
        rw [Nat.mod_add_mod]
        congr 1
        omega
      exact ih ((idx + 1) % players.length) (t - 1) (by omega) (by omega)
        (by rw [hshift]; exact hstop)
    · rw [if_neg hcond]
      by_cases hrank : rankAt players ((idx + 1) % players.length) = 0
      · exact Or.inl hrank
      · right
        by_contra hne
        exact hcond ⟨Nat.pos_of_ne_zero hrank, hne⟩

theorem switchLoop_hit (players : List Player) (c : Nat) :
    ∀ fuel idx j t, j ≠ c → rankAt players j = 0 →
      1 ≤ t → t ≤ fuel + 1 → (idx + t) % players.length = j →
      (∀ s, 1 ≤ s → s < t → (idx + s) % players.length ≠ c) →
      rankAt players (switchLoop players c idx fuel) = 0
        ∧ switchLoop players c idx fuel ≠ c := by
  intro fuel
  induction fuel with
  | zero =>
    intro idx j t hjc hj0 h1 h2 hreach hinv
    have ht : t = 1 := by omega
    subst ht
    rw [switchLoop_zero]
    rw [hreach]
    exact ⟨hj0, hjc⟩
  | succ fuel ih =>
    intro idx j t hjc hj0 h1 h2 hreach hinv
    rw [switchLoop_succ]
    by_cases ht1 : t = 1
    · subst ht1
      have hnext : (idx + 1) % players.length = j := hreach
      have hcond : ¬(0 < rankAt players ((idx + 1) % players.length)
          ∧ (idx + 1) % players.length ≠ c) := by
        intro hx
        rw [hnext] at hx
        omega
      rw [if_neg hcond, hnext]
      exact ⟨hj0, hjc⟩
    · have ht2 : 2 ≤ t := by omega
      have hnextc : (idx + 1) % players.length ≠ c := by
        have := hinv 1 (by omega) (by omega)
        simpa using this
      by_cases hrank : rankAt players ((idx + 1) % players.length) = 0
      · have hcond : ¬(0 < rankAt players ((idx + 1) % players.length)
            ∧ (idx + 1) % players.length ≠ c) := by
          intro hx
          omega
        rw [if_neg hcond]
        exact ⟨hrank, hnextc⟩
      · have hcond : 0 < rankAt players ((idx + 1) % players.length)
            ∧ (idx + 1) % players.length ≠ c :=
          ⟨Nat.pos_of_ne_zero hrank, hnextc⟩
        rw [if_pos hcond]
        have hshift : ∀ s, ((idx + 1) % players.length + s) % players.length
            = (idx + (s + 1)) % players.length := by
          intro s
          rw [Nat.mod_add_mod]
          congr 1
          omega
        apply ih ((idx + 1) % players.length) j (t - 1) hjc hj0 (by omega) (by omega)
        · rw [hshift]
          have : t - 1 + 1 = t := by omega
          rw [this]
          exact hreach
        · intro s hs1 hs2
          rw [hshift]
          exact hinv (s + 1) (by omega) (by omega)

theorem switchLoop_stay (players : List Player) (c : Nat)
    (hn : 0 < players.length) :
    ∀ fuel idx t,
      (∀ j, j < players.length → j ≠ c → 0 < rankAt players j) →
      1 ≤ t → t ≤ fuel + 1 → (idx + t) % players.length = c →
      (∀ s, 1 ≤ s → s < t → (idx + s) % players.length ≠ c) →
      switchLoop players c idx fuel = c := by
  intro fuel
  induction fuel with
  | zero =>
    intro idx t hall h1 h2 hreach hinv
    have ht : t = 1 := by omega
    subst ht
    rw [switchLoop_zero]
    exact hreach
  | succ fuel ih =>
    intro idx t hall h1 h2 hreach hinv
    rw [switchLoop_succ]
    by_cases ht1 : t = 1
    · subst ht1
      have hnext : (idx + 1) % players.length = c := hreach
      have hcond : ¬(0 < rankAt players ((idx + 1) % players.length)
          ∧ (idx + 1) % players.length ≠ c) := by
        intro hx
        exact hx.2 hnext
      rw [if_neg hcond]
      exact hnext
    · have ht2 : 2 ≤ t := by omega
      have hnextc : (idx + 1) % players.length ≠ c := by
        have := hinv 1 (by omega) (by omega)
        simpa using this
      have hcond : 0 < rankAt players ((idx + 1) % players.length)
          ∧ (idx + 1) % players.length ≠ c :=
        ⟨hall _ (Nat.mod_lt _ hn) hnextc, hnextc⟩
      rw [if_pos hcond]
      have hshift : ∀ s, ((idx + 1) % players.length + s) % players.length
          = (idx + (s + 1)) % players.length := by
        intro s
        rw [Nat.mod_add_mod]
        congr 1
        omega
      apply ih ((idx + 1) % players.length) (t - 1) hall (by omega) (by omega)
      · rw [hshift]
        have : t - 1 + 1 = t := by omega
        rw [this]
        exact hreach
      · intro s hs1 hs2
        rw [hshift]
        exact hinv (s + 1) (by omega) (by omega)

theorem full_cycle_mod (n c : Nat) (hc : c < n) : (c + n) % n = c := by
  rw [Nat.add_mod_right]
  exact Nat.mod_eq_of_lt hc

theorem nextPlayerIndex_eq_of_le (players : List Player) (c fuel : Nat)
    (hc : c < players.length) (hfuel : players.length ≤ fuel) :
    switchLoop players c c fuel = nextPlayerIndex players c := by
  unfold nextPlayerIndex
  apply switchLoop_fuel_congr players c fuel players.length c players.length
    (by omega) (by omega) (by omega)
  exact Or.inr (full_cycle_mod players.length c hc)

theorem nextPlayerIndex_stop (players : List Player) (c : Nat)
    (hc : c < players.length) :
    rankAt players (nextPlayerIndex players c) = 0 ∨ nextPlayerIndex players c = c := by
  unfold nextPlayerIndex
  apply switchLoop_stop players c players.length c players.length (by omega) (by omega)
  exact Or.inr (full_cycle_mod players.length c hc)

theorem nextPlayerIndex_rank_zero (players : List Player) (c : Nat)
    (hc : c < players.length) (j : Nat) (hj : j < players.length) (hjc : j ≠ c)
    (hj0 : rankAt players j = 0) :
    rankAt players (nextPlayerIndex players c) = 0 ∧ nextPlayerIndex players c ≠ c := by
  unfold nextPlayerIndex
  rcases Nat.lt_or_ge c j with hcj | hjc2
  · apply switchLoop_hit players c players.length c j (j - c) hjc hj0 (by omega)
      (by omega)
    · have : c + (j - c) = j := by omega
      rw [this]
      exact Nat.mod_eq_of_lt hj
    · intro s hs1 hs2
      exact add_mod_ne players.length c s hc hs1 (by omega)
  · have hjlt : j < c := by omega
    apply switchLoop_hit players c players.length c j (players.length - c + j) hjc hj0
      (by omega) (by omega)
    · have : c + (players.length - c + j) = players.length + j := by omega
      rw [this, Nat.add_mod_left]
      exact Nat.mod_eq_of_lt hj
    · intro s hs1 hs2
      exact add_mod_ne players.length c s hc hs1 (by omega)

theorem nextPlayerIndex_stay (players : List Player) (c : Nat)
    (hc : c < players.length)
    (hall : ∀ j, j < players.length → j ≠ c → 0 < rankAt players j) :
    nextPlayerIndex players c = c := by
  unfold nextPlayerIndex
  apply switchLoop_stay players c (by omega) players.length c players.length hall
    (by omega) (by omega) (full_cycle_mod players.length c hc)
  intro s hs1 hs2
  exact add_mod_ne players.length c s hc hs1 (by omega)

/-! Characterization of moveToken and applyMove. -/

theorem finishGame_currentPlayerIndex (gs : GameState) :
    (finishGame gs).currentPlayerIndex = gs.currentPlayerIndex := by
  simp only [finishGame]
  split <;> rfl

theorem finishGame_consecutiveSixes (gs : GameState) :
    (finishGame gs).consecutiveSixes = gs.consecutiveSixes := by
  simp only [finishGame]
  split <;> rfl

theorem finishGame_tokenPositions (gs : GameState) :
    (finishGame gs).tokenPositions = gs.tokenPositions := by
  simp only [finishGame]
  split <;> rfl

theorem recordWin_currentPlayerIndex (gs : GameState) (cp : Player) :
    (recordWin gs cp).currentPlayerIndex = gs.currentPlayerIndex := by
  simp only [recordWin]
  split
  · rw [finishGame_currentPlayerIndex]
  · rfl

theorem recordWin_consecutiveSixes (gs : GameState) (cp : Player) :
    (recordWin gs cp).consecutiveSixes = gs.consecutiveSixes := by
  simp only [recordWin]
  split
  · rw [finishGame_consecutiveSixes]
  · rfl

theorem recordWin_tokenPositions (gs : GameState) (cp : Player) :
    (recordWin gs cp).tokenPositions = gs.tokenPositions := by
  simp only [recordWin]
  split
  · rw [finishGame_tokenPositions]
  · rfl

theorem applyMove_eq (gs : GameState) (cp : Player) (d : Nat) (tid tgt fr : String) :
    applyMove gs cp d tid tgt fr =
      { success := true
        result := some (movedResult gs cp d tid tgt fr)
        saved := some (movedSavedState gs cp tid tgt) } := by
  unfold applyMove movedSavedState movedResult
  simp only [ite_self]

theorem movedSavedState_phase (gs : GameState) (cp : Player) (tid tgt : String) :
    (movedSavedState gs cp tid tgt).phase = GamePhase.rolling := rfl

theorem movedSavedState_diceValue (gs : GameState) (cp : Player) (tid tgt : String) :
    (movedSavedState gs cp tid tgt).diceValue = none := rfl

theorem movedSavedState_currentPlayerIndex (gs : GameState) (cp : Player)
    (tid tgt : String) :
    (movedSavedState gs cp tid tgt).currentPlayerIndex = gs.currentPlayerIndex := by
  simp only [movedSavedState]
  split
  · rw [recordWin_currentPlayerIndex]
  · rfl

theorem movedSavedState_consecutiveSixes (gs : GameState) (cp : Player)
    (tid tgt : String) :
    (movedSavedState gs cp tid tgt).consecutiveSixes = gs.consecutiveSixes := by
  simp only [movedSavedState]
  split
  · rw [recordWin_consecutiveSixes]
  · rfl

theorem movedSavedState_tokenPositions (gs : GameState) (cp : Player)
    (tid tgt : String) :
    (movedSavedState gs cp tid tgt).tokenPositions
      = (moveCapRes gs cp.color tid tgt).1 := by
  simp only [movedSavedState]
  split
  · rw [recordWin_tokenPositions]
  · rfl

theorem applyMove_success (gs : GameState) (cp : Player) (d : Nat)
    (tid tgt fr : String) : (applyMove gs cp d tid tgt fr).success = true := rfl

/-- Master case analysis for moveToken: either a validation failed (no save),
or every guard passed and the call equals applyMove on the guard data. -/
theorem moveToken_elim (gs : GameState) (pid tid tgt : String) :
    ((moveToken gs pid tid tgt).success = false
      ∧ (moveToken gs pid tid tgt).saved = none)
    ∨ (∃ cp d toks token,
        gs.players.get? gs.currentPlayerIndex = some cp
        ∧ cp.playerId = pid
        ∧ gs.phase = GamePhase.moving
        ∧ gs.diceValue = some d
        ∧ isValidTokenId tid cp.color = true
        ∧ lookupTokens gs.tokenPositions cp.color = some toks
        ∧ toks.find? (fun t => decide (t.tokenId = tid)) = some token
        ∧ (canMoveToken token.positionId d cp.color).valid = true
        ∧ (canMoveToken token.positionId d cp.color).targetPosition = some tgt
        ∧ moveToken gs pid tid tgt = applyMove gs cp d tid tgt token.positionId) := by
  unfold moveToken
  cases h1 : gs.players.get? gs.currentPlayerIndex with
  | none => exact Or.inl ⟨rfl, rfl⟩
  | some cp =>
    dsimp only
    by_cases h2 : cp.playerId ≠ pid
    · rw [if_pos h2]
      exact Or.inl ⟨rfl, rfl⟩
    · rw [if_neg h2]
      by_cases h3 : gs.phase ≠ GamePhase.moving
      · rw [if_pos h3]
        exact Or.inl ⟨rfl, rfl⟩
      · rw [if_neg h3]
        cases h4 : gs.diceValue with
        | none => exact Or.inl ⟨rfl, rfl⟩
        | some d =>
          dsimp only
          by_cases h5 : isValidTokenId tid cp.color = false
          · rw [if_pos h5]
            exact Or.inl ⟨rfl, rfl⟩
          · rw [if_neg h5]
            cases h6 : lookupTokens gs.tokenPositions cp.color with
            | none => exact Or.inl ⟨rfl, rfl⟩
            | some toks =>
              dsimp only
              cases h7 : toks.find? (fun t => decide (t.tokenId = tid)) with
              | none => exact Or.inl ⟨rfl, rfl⟩
              | some token =>
                dsimp only
                by_cases h8 : (canMoveToken token.positionId d cp.color).valid = false
                · rw [if_pos h8]
                  exact Or.inl ⟨rfl, rfl⟩
                · rw [if_neg h8]
                  by_cases h9 : (canMoveToken token.positionId d cp.color).targetPosition
                      ≠ some tgt
                  · rw [if_pos h9]
                    exact Or.inl ⟨rfl, rfl⟩
                  · rw [if_neg h9]
                    refine Or.inr ⟨cp, d, toks, token, rfl, Decidable.not_not.mp h2,
                      Decidable.not_not.mp h3, rfl, ?_, h6, h7, ?_,
                      Decidable.not_not.mp h9, rfl⟩
                    · cases hv : isValidTokenId tid cp.color
                      · exact absurd hv h5
                      · rfl
                    · cases hv : (canMoveToken token.positionId d cp.color).valid
                      · exact absurd hv h8
                      · rfl

theorem moveToken_fail_nosave (gs : GameState) (pid tid tgt : String)
    (h : (moveToken gs pid tid tgt).success = false) :
    (moveToken gs pid tid tgt).saved = none := by
  rcases moveToken_elim gs pid tid tgt with ⟨_, hn⟩ | ⟨cp, d, toks, token, _, _, _, _,
    _, _, _, _, _, heq⟩
  · exact hn
  · rw [heq, applyMove_success] at h
    exact absurd h (by simp)

theorem moveToken_saved_fields (gs : GameState) (pid tid tgt : String)
    (s : GameState) (h : (moveToken gs pid tid tgt).saved = some s) :
    s.phase = GamePhase.rolling
    ∧ s.diceValue = none
    ∧ s.currentPlayerIndex = gs.currentPlayerIndex
    ∧ s.consecutiveSixes = gs.consecutiveSixes := by
  rcases moveToken_elim gs pid tid tgt with ⟨_, hn⟩ | ⟨cp, d, toks, token, _, _, _, _,
    _, _, _, _, _, heq⟩
  · rw [hn] at h
    exact absurd h (by simp)
  · rw [heq, applyMove_eq] at h
    simp only [Option.some.injEq] at h
    subst h
    exact ⟨movedSavedState_phase gs cp tid tgt, movedSavedState_diceValue gs cp tid tgt,
      movedSavedState_currentPlayerIndex gs cp tid tgt,
      movedSavedState_consecutiveSixes gs cp tid tgt⟩

/-- C8: the caller-supplied target must equal the target recomputed by the
Rules Engine from the stored token position and stored dice value, otherwise
the call fails; and every failing path performs no save, leaving the persisted
state untouched. -/
theorem C8_target_recomputed_and_no_save_on_failure (gs : GameState)
    (pid tid tgt : String) :
    ((moveToken gs pid tid tgt).success = true →
      ∃ cp d toks token,
        gs.players.get? gs.currentPlayerIndex = some cp
        ∧ cp.playerId = pid
        ∧ gs.diceValue = some d
        ∧ lookupTokens gs.tokenPositions cp.color = some toks
        ∧ toks.find? (fun t => decide (t.tokenId = tid)) = some token
        ∧ (canMoveToken token.positionId d cp.color).targetPosition = some tgt)
    ∧ ((moveToken gs pid tid tgt).success = false →
      (moveToken gs pid tid tgt).saved = none) := by
  constructor
  · intro hs
    rcases moveToken_elim gs pid tid tgt with ⟨hf, _⟩ | ⟨cp, d, toks, token, h1, h2,
      _, h4, _, h6, h7, _, h9, _⟩
    · rw [hf] at hs
      exact absurd hs (by simp)
    · exact ⟨cp, d, toks, token, h1, h2, h4, h6, h7, h9⟩
  · exact moveToken_fail_nosave gs pid tid tgt

/-- C8 witness: a call by the wrong player fails and performs no save. -/
theorem C8_witness :
    (moveToken c1FinishState "p1" "RT1" "R2").saved = none :=
  (C8_target_recomputed_and_no_save_on_failure c1FinishState "p1" "RT1" "R2").2
    (by decide)

/-! Lemmas about setTokenPos and sendTokenToBase, leading to the capture
claim. -/

theorem setTokenPos_ids (toks : List TokenPosition) (tid pos : String) :
    (setTokenPos toks tid pos).map TokenPosition.tokenId
      = toks.map TokenPosition.tokenId := by
  induction toks with
  | nil => rfl
  | cons t ts ih =>
    unfold setTokenPos
    by_cases h : t.tokenId = tid
    · rw [if_pos h]
      simp
    · rw [if_neg h]
      simp [ih]

theorem setTokenPos_any (toks : List TokenPosition) (tid pos tid2 : String) :
    (setTokenPos toks tid pos).any (fun t => decide (t.tokenId = tid2))
      = toks.any (fun t => decide (t.tokenId = tid2)) := by
  induction toks with
  | nil => rfl
  | cons t ts ih =>
    unfold setTokenPos
    by_cases h : t.tokenId = tid
    · rw [if_pos h]
      simp
    · rw [if_neg h]
      simp [ih]

theorem setTokenPos_find_ne (toks : List TokenPosition) (tid pos tid2 : String)
    (h : tid2 ≠ tid) :
    (setTokenPos toks tid pos).find? (fun t => decide (t.tokenId = tid2))
      = toks.find? (fun t => decide (t.tokenId = tid2)) := by
  induction toks with
  | nil => rfl
  | cons t ts ih =>
    unfold setTokenPos
    by_cases ht : t.tokenId = tid
    · rw [if_pos ht]
      have hne : ¬t.tokenId = tid2 := by
        rw [ht]
        exact fun hh => h hh.symm
      simp [List.find?_cons, hne]
    · rw [if_neg ht]
      by_cases h2 : t.tokenId = tid2
      · simp [List.find?_cons, h2]
      · simp [List.find?_cons, h2, ih]

theorem setTokenPos_find_self (toks : List TokenPosition) (tid pos : String)
    (tok : TokenPosition)
    (h : toks.find? (fun t => decide (t.tokenId = tid)) = some tok) :
    (setTokenPos toks tid pos).find? (fun t => decide (t.tokenId = tid))
      = some { tokenId := tid, positionId := pos } := by
  induction toks with
  | nil => simp at h
  | cons t ts ih =>
    unfold setTokenPos
    by_cases ht : t.tokenId = tid
    · rw [if_pos ht]
      simp [List.find?_cons, ht]
    · rw [if_neg ht]
      rw [List.find?_cons_of_neg _ (by simpa using ht)] at h
      simp [List.find?_cons, ht, ih h]

theorem allTokenIds_cons (c : PlayerColor) (toks : List TokenPosition)
    (rest : List (PlayerColor × List TokenPosition)) :
    allTokenIds ((c, toks) :: rest)
      = toks.map TokenPosition.tokenId ++ allTokenIds rest := by
  simp [allTokenIds]

theorem sendTokenToBase_ids (tps : List (PlayerColor × List TokenPosition))
    (tid : String) :
    allTokenIds (sendTokenToBase tps tid).1 = allTokenIds tps := by
  induction tps with
  | nil => rfl
  | cons e rest ih =>
    obtain ⟨c, toks⟩ := e
    unfold sendTokenToBase
    by_cases h : toks.any (fun t => decide (t.tokenId = tid)) = true
    · rw [if_pos h]
      rw [allTokenIds_cons, allTokenIds_cons, setTokenPos_ids]
    · rw [if_neg h]
      rw [allTokenIds_cons, allTokenIds_cons, ih]

theorem posOf_sendTokenToBase_ne (tps : List (PlayerColor × List TokenPosition))
    (tid tid2 : String) (h : tid2 ≠ tid) :
    posOf (sendTokenToBase tps tid).1 tid2 = posOf tps tid2 := by
  induction tps with
  | nil => rfl
  | cons e rest ih =>
    obtain ⟨c, toks⟩ := e
    unfold sendTokenToBase
    by_cases hany : toks.any (fun t => decide (t.tokenId = tid)) = true
    · rw [if_pos hany]
      show posOf ((c, setTokenPos toks tid (getBasePosition tid c)) :: rest) tid2
        = posOf ((c, toks) :: rest) tid2
      unfold posOf
      rw [setTokenPos_find_ne toks tid (getBasePosition tid c) tid2 h]
    · rw [if_neg hany]
      show posOf ((c, toks) :: (sendTokenToBase rest tid).1) tid2
        = posOf ((c, toks) :: rest) tid2
      unfold posOf
      cases toks.find? (fun t => decide (t.tokenId = tid2)) with
      | some t => rfl
      | none => exact ih

theorem ownerColor_sendTokenToBase (tps : List (PlayerColor × List TokenPosition))
    (tid tid2 : String) :
    ownerColor (sendTokenToBase tps tid).1 tid2 = ownerColor tps tid2 := by
  induction tps with
  | nil => rfl
  | cons e rest ih =>
    obtain ⟨c, toks⟩ := e
    unfold sendTokenToBase
    by_cases hany : toks.any (fun t => decide (t.tokenId = tid)) = true
    · rw [if_pos hany]
      show ownerColor ((c, setTokenPos toks tid (getBasePosition tid c)) :: rest) tid2
        = ownerColor ((c, toks) :: rest) tid2
      unfold ownerColor
      rw [setTokenPos_any]
    · rw [if_neg hany]
      show ownerColor ((c, toks) :: (sendTokenToBase rest tid).1) tid2
        = ownerColor ((c, toks) :: rest) tid2
      unfold ownerColor
      rw [ih]

theorem posOf_sendTokenToBase_self (tps : List (PlayerColor × List TokenPosition))
    (tid : String) (c : PlayerColor) (h : ownerColor tps tid = some c) :
    posOf (sendTokenToBase tps tid).1 tid = some (getBasePosition tid c) := by
  induction tps with
  | nil => simp [ownerColor] at h
  | cons e rest ih =>
    obtain ⟨c0, toks⟩ := e
    unfold ownerColor at h
    unfold sendTokenToBase
    by_cases hany : toks.any (fun t => decide (t.tokenId = tid)) = true
    · rw [if_pos hany] at h
      rw [if_pos hany]
      have hc : c0 = c := by
        injection h
      subst hc
      cases hf : toks.find? (fun t => decide (t.tokenId = tid)) with
      | none =>
        rcases List.any_eq_true.mp hany with ⟨t, htmem, htid⟩
        exact absurd htid (by simp [List.find?_eq_none.mp hf t htmem])
      | some tok =>
        show posOf ((c0, setTokenPos toks tid (getBasePosition tid c0)) :: rest) tid
          = some (getBasePosition tid c0)
        unfold posOf
        rw [setTokenPos_find_self toks tid (getBasePosition tid c0) tok hf]
    · rw [if_neg hany] at h
      rw [if_neg hany]
      show posOf ((c0, toks) :: (sendTokenToBase rest tid).1) tid
        = some (getBasePosition tid c)
      unfold posOf
      rw [List.find?_eq_none.mpr ?_]
      · exact ih h
      · intro t htmem
        simp only [decide_eq_true_eq]
        intro heq
        exact hany (List.any_eq_true.mpr ⟨t, htmem, by simpa using heq⟩)

theorem applyCapturesTps_cons (ct : TokenPosition) (rest : List TokenPosition)
    (tps : List (PlayerColor × List TokenPosition)) :
    applyCapturesTps (ct :: rest) tps
      = applyCapturesTps rest (sendTokenToBase tps ct.tokenId).1 := by
  simp [applyCapturesTps]

theorem applyCaptures_foldl_fst (cts : List TokenPosition) :
    ∀ (tps : List (PlayerColor × List TokenPosition)) (o : Option String),
      (cts.foldl
        (fun acc ct =>
          let r := sendTokenToBase acc.1 ct.tokenId
          (r.1, if r.2 then some ct.tokenId else acc.2))
        (tps, o)).1 = applyCapturesTps cts tps := by
  induction cts with
  | nil =>
    intro tps o
    rfl
  | cons ct rest ih =>
    intro tps o
    rw [List.foldl_cons, applyCapturesTps_cons]
    exact ih (sendTokenToBase tps ct.tokenId).1 _

theorem applyCaptures_fst (cts : List TokenPosition)
    (tps : List (PlayerColor × List TokenPosition)) :
    (applyCaptures cts tps).1 = applyCapturesTps cts tps := by
  unfold applyCaptures
  exact applyCaptures_foldl_fst cts tps none

theorem posOf_applyCapturesTps_ne (cts : List TokenPosition) :
    ∀ (tps : List (PlayerColor × List TokenPosition)) (tid : String),
      (∀ ct ∈ cts, ct.tokenId ≠ tid) →
      posOf (applyCapturesTps cts tps) tid = posOf tps tid := by
  induction cts with
  | nil =>
    intro tps tid _
    rfl
  | cons ct rest ih =>
    intro tps tid h
    rw [applyCapturesTps_cons]
    rw [ih _ tid fun ct2 h2 => h ct2 (List.mem_cons_of_mem _ h2)]
    exact posOf_sendTokenToBase_ne tps ct.tokenId tid
      fun he => h ct (List.mem_cons_self _ _) he.symm

theorem posOf_applyCapturesTps_mem (cts : List TokenPosition) :
    ∀ (tps : List (PlayerColor × List TokenPosition)),
      (cts.map TokenPosition.tokenId).Nodup →
      ∀ ct ∈ cts, ∀ c, ownerColor tps ct.tokenId = some c →
        posOf (applyCapturesTps cts tps) ct.tokenId
          = some (getBasePosition ct.tokenId c) := by
  induction cts with
  | nil =>
    intro tps _ ct h
    exact absurd h (List.not_mem_nil ct)
  | cons ct0 rest ih =>
    intro tps hnd ct hmem c hown
    rw [applyCapturesTps_cons]
    have hnd2 := List.nodup_cons.mp hnd
    rcases List.mem_cons.mp hmem with heq | hmem2
    · subst heq
      have hne : ∀ ct2 ∈ rest, ct2.tokenId ≠ ct.tokenId :=
        fun ct2 h2 heq2 => hnd2.1 (heq2 ▸ List.mem_map_of_mem TokenPosition.tokenId h2)
      rw [posOf_applyCapturesTps_ne rest _ _ hne]
      exact posOf_sendTokenToBase_self tps ct.tokenId c hown
    · apply ih _ hnd2.2 ct hmem2 c
      rw [ownerColor_sendTokenToBase]
      exact hown

/-! Observers of well-formed token position tables. -/

theorem find?_self_of_nodup (toks : List TokenPosition) (t : TokenPosition)
    (hnd : (toks.map TokenPosition.tokenId).Nodup) (hmem : t ∈ toks) :
    toks.find? (fun x => decide (x.tokenId = t.tokenId)) = some t := by
  induction toks with
  | nil => exact absurd hmem (List.not_mem_nil t)
  | cons x xs ih =>
    have hnd2 : x.tokenId ∉ xs.map TokenPosition.tokenId
        ∧ (xs.map TokenPosition.tokenId).Nodup := by
      rw [List.map_cons] at hnd
      exact List.nodup_cons.mp hnd
    rcases List.mem_cons.mp hmem with heq | hmem2
    · subst heq
      simp [List.find?_cons]
    · by_cases hx : x.tokenId = t.tokenId
      · exact absurd (hx ▸ List.mem_map_of_mem TokenPosition.tokenId hmem2) hnd2.1
      · rw [List.find?_cons_of_neg _ (by simpa using hx)]
        exact ih hnd2.2 hmem2

theorem mem_allTokenIds (tps : List (PlayerColor × List TokenPosition))
    (e : PlayerColor × List TokenPosition) (he : e ∈ tps)
    (t : TokenPosition) (ht : t ∈ e.2) :
    t.tokenId ∈ allTokenIds tps := by
  unfold allTokenIds
  exact List.mem_flatMap.mpr ⟨e, he, List.mem_map_of_mem TokenPosition.tokenId ht⟩

theorem posOf_mem (tps : List (PlayerColor × List TokenPosition))
    (hnd : (allTokenIds tps).Nodup)
    (e : PlayerColor × List TokenPosition) (he : e ∈ tps)
    (t : TokenPosition) (ht : t ∈ e.2) :
    posOf tps t.tokenId = some t.positionId := by
  induction tps with
  | nil => exact absurd he (List.not_mem_nil e)
  | cons e0 rest ih =>
    obtain ⟨c0, toks0⟩ := e0
    rw [allTokenIds_cons] at hnd
    have hnd2 := List.nodup_append.mp hnd
    rcases List.mem_cons.mp he with heq | hmem
    · subst heq
      show posOf ((c0, toks0) :: rest) t.tokenId = some t.positionId
      unfold posOf
      rw [find?_self_of_nodup toks0 t hnd2.1 ht]
    · show posOf ((c0, toks0) :: rest) t.tokenId = some t.positionId
      unfold posOf
      have hmem2 : t.tokenId ∈ allTokenIds rest := mem_allTokenIds rest e hmem t ht
      rw [List.find?_eq_none.mpr ?_]
      · exact ih hnd2.2.1 hmem
      · intro x hxmem
        simp only [decide_eq_true_eq]
        intro heq
        exact hnd2.2.2 (heq ▸ List.mem_map_of_mem TokenPosition.tokenId hxmem) hmem2

theorem ownerColor_mem (tps : List (PlayerColor × List TokenPosition))
    (hnd : (allTokenIds tps).Nodup)
    (e : PlayerColor × List TokenPosition) (he : e ∈ tps)
    (t : TokenPosition) (ht : t ∈ e.2) :
    ownerColor tps t.tokenId = some e.1 := by
  induction tps with
  | nil => exact absurd he (List.not_mem_nil e)
  | cons e0 rest ih =>
    obtain ⟨c0, toks0⟩ := e0
    rw [allTokenIds_cons] at hnd
    have hnd2 := List.nodup_append.mp hnd
    rcases List.mem_cons.mp he with heq | hmem
    · subst heq
      show ownerColor ((c0, toks0) :: rest) t.tokenId = some c0
      unfold ownerColor
      rw [if_pos (List.any_eq_true.mpr ⟨t, ht, by simp⟩)]
    · show ownerColor ((c0, toks0) :: rest) t.tokenId = some e.1
      unfold ownerColor
      have hmem2 : t.tokenId ∈ allTokenIds rest := mem_allTokenIds rest e hmem t ht
      rw [if_neg ?_]
      · exact ih hnd2.2.1 hmem
      · intro hany
        rcases List.any_eq_true.mp hany with ⟨x, hxmem, hx⟩
        have : x.tokenId = t.tokenId := by simpa using hx
        exact hnd2.2.2 (this ▸ List.mem_map_of_mem TokenPosition.tokenId hxmem) hmem2

/-! Lemmas about updateTokensAt and lookupTokens. -/

theorem updateTokensAt_ids (tps : List (PlayerColor × List TokenPosition))
    (color : PlayerColor) (tid pos : String) :
    allTokenIds (updateTokensAt tps color tid pos) = allTokenIds tps := by
  induction tps with
  | nil => rfl
  | cons e rest ih =>
    obtain ⟨c0, toks0⟩ := e
    unfold updateTokensAt
    by_cases hc : c0 = color
    · rw [if_pos hc, allTokenIds_cons, allTokenIds_cons, setTokenPos_ids]
    · rw [if_neg hc, allTokenIds_cons, allTokenIds_cons, ih]

theorem updateTokensAt_mem_other (tps : List (PlayerColor × List TokenPosition))
    (color : PlayerColor) (tid pos : String)
    (e : PlayerColor × List TokenPosition) (he : e ∈ tps) (hne : e.1 ≠ color) :
    e ∈ updateTokensAt tps color tid pos := by
  induction tps with
  | nil => exact absurd he (List.not_mem_nil e)
  | cons e0 rest ih =>
    obtain ⟨c0, toks0⟩ := e0
    unfold updateTokensAt
    rcases List.mem_cons.mp he with heq | hmem
    · subst heq
      rw [if_neg hne]
      exact List.mem_cons_self _ _
    · by_cases hc : c0 = color
      · rw [if_pos hc]
        exact List.mem_cons_of_mem _ hmem
      · rw [if_neg hc]
        exact List.mem_cons_of_mem _ (ih hmem)

theorem posOf_updateTokensAt_ne (tps : List (PlayerColor × List TokenPosition))
    (color : PlayerColor) (tid pos tid2 : String) (h : tid2 ≠ tid) :
    posOf (updateTokensAt tps color tid pos) tid2 = posOf tps tid2 := by
  induction tps with
  | nil => rfl
  | cons e rest ih =>
    obtain ⟨c0, toks0⟩ := e
    unfold updateTokensAt
    by_cases hc : c0 = color
    · rw [if_pos hc]
      show posOf ((c0, setTokenPos toks0 tid pos) :: rest) tid2
        = posOf ((c0, toks0) :: rest) tid2
      unfold posOf
      rw [setTokenPos_find_ne toks0 tid pos tid2 h]
    · rw [if_neg hc]
      show posOf ((c0, toks0) :: updateTokensAt rest color tid pos) tid2
        = posOf ((c0, toks0) :: rest) tid2
      unfold posOf
      cases toks0.find? (fun t => decide (t.tokenId = tid2)) with
      | some t => rfl
      | none => exact ih

theorem lookupTokens_exists (tps : List (PlayerColor × List TokenPosition))
    (color : PlayerColor) (toks : List TokenPosition)
    (h : lookupTokens tps color = some toks) :
    ∃ e, e ∈ tps ∧ e.1 = color ∧ e.2 = toks := by
  unfold lookupTokens at h
  cases hf : tps.find? (fun e => decide (e.1 = color)) with
  | none =>
    rw [hf] at h
    exact absurd h (by simp)
  | some e =>
    rw [hf] at h
    refine ⟨e, List.mem_of_find?_eq_some hf, ?_, by simpa using h⟩
    have := List.find?_some hf
    simpa using this

theorem posOf_updateTokensAt_self (tps : List (PlayerColor × List TokenPosition)) :
    ∀ (color : PlayerColor) (tid pos : String) (toks : List TokenPosition)
      (token : TokenPosition),
      (allTokenIds tps).Nodup →
      lookupTokens tps color = some toks →
      toks.find? (fun t => decide (t.tokenId = tid)) = some token →
      posOf (updateTokensAt tps color tid pos) tid = some pos := by
  induction tps with
  | nil =>
    intro color tid pos toks token _ hlk _
    simp [lookupTokens] at hlk
  | cons e rest ih =>
    intro color tid pos toks token hnd hlk hfind
    obtain ⟨c0, toks0⟩ := e
    rw [allTokenIds_cons] at hnd
    have hnd2 := List.nodup_append.mp hnd
    unfold updateTokensAt
    by_cases hc : c0 = color
    · rw [if_pos hc]
      have htoks : toks0 = toks := by
        unfold lookupTokens at hlk
        rw [List.find?_cons_of_pos _ (by simpa using hc)] at hlk
        simpa using hlk
      subst htoks
      show posOf ((c0, setTokenPos toks0 tid pos) :: rest) tid = some pos
      unfold posOf
      rw [setTokenPos_find_self toks0 tid pos token hfind]
    · rw [if_neg hc]
      have hlk2 : lookupTokens rest color = some toks := by
        unfold lookupTokens at hlk ⊢
        rw [List.find?_cons_of_neg _ (by simpa using hc)] at hlk
        exact hlk
      show posOf ((c0, toks0) :: updateTokensAt rest color tid pos) tid = some pos
      unfold posOf
      rcases lookupTokens_exists rest color toks hlk2 with ⟨e2, he2, _, he2toks⟩
      have htid : tid ∈ allTokenIds rest := by
        have hmem := List.mem_of_find?_eq_some hfind
        have hid : token.tokenId = tid := by
          have := List.find?_some hfind
          simpa using this
        exact hid ▸ mem_allTokenIds rest e2 he2 token (he2toks ▸ hmem)
      rw [List.find?_eq_none.mpr ?_]
      · exact ih color tid pos toks token hnd2.2.1 hlk2 hfind
      · intro x hxmem
        simp only [decide_eq_true_eq]
        intro heq
        exact hnd2.2.2 (heq ▸ List.mem_map_of_mem TokenPosition.tokenId hxmem) htid

/-! Lemmas about detectCollision. -/

theorem detectCollision_safe (t : String) (ac : PlayerColor)
    (tps : List (PlayerColor × List TokenPosition)) (h : isSafeSpot t = true) :
    detectCollision t ac tps = { captured := false, capturedTokens := [] } := by
  simp [detectCollision, h]

theorem detectCollision_capturedTokens (t : String) (ac : PlayerColor)
    (tps : List (PlayerColor × List TokenPosition)) (h : isSafeSpot t = false) :
    (detectCollision t ac tps).capturedTokens
      = tps.flatMap fun e =>
          if e.1 = ac then []
          else e.2.filter fun x => decide (x.positionId = t) := by
  simp [detectCollision, h]

theorem detectCollision_mem (t : String) (ac : PlayerColor)
    (tps : List (PlayerColor × List TokenPosition)) (h : isSafeSpot t = false)
    (ct : TokenPosition) :
    ct ∈ (detectCollision t ac tps).capturedTokens
      ↔ ∃ e, e ∈ tps ∧ ¬e.1 = ac ∧ ct ∈ e.2 ∧ ct.positionId = t := by
  rw [detectCollision_capturedTokens t ac tps h]
  rw [List.mem_flatMap]
  constructor
  · rintro ⟨e, he, hin⟩
    by_cases hc : e.1 = ac
    · rw [if_pos hc] at hin
      exact absurd hin (List.not_mem_nil ct)
    · rw [if_neg hc] at hin
      have hm := List.mem_filter.mp hin
      exact ⟨e, he, hc, hm.1, by simpa using hm.2⟩
  · rintro ⟨e, he, hc, hin, hpos⟩
    refine ⟨e, he, ?_⟩
    rw [if_neg hc]
    exact List.mem_filter.mpr ⟨hin, by simpa using hpos⟩

theorem detectCollision_captured_true (t : String) (ac : PlayerColor)
    (tps : List (PlayerColor × List TokenPosition)) (ct : TokenPosition)
    (hm : ct ∈ (detectCollision t ac tps).capturedTokens) :
    (detectCollision t ac tps).captured = true := by
  by_cases h : isSafeSpot t = true
  · rw [detectCollision_safe t ac tps h] at hm
    exact absurd hm (List.not_mem_nil ct)
  · have h2 : isSafeSpot t = false := by
      cases hv : isSafeSpot t
      · rfl
      · exact absurd hv h
    rw [detectCollision_capturedTokens t ac tps h2] at hm
    simp only [detectCollision, h2, Bool.false_eq_true, if_false,
      decide_eq_true_eq]
    exact List.length_pos.mpr (List.ne_nil_of_mem hm)

theorem captured_ids_sublist (t : String) (ac : PlayerColor) :
    ∀ (tps : List (PlayerColor × List TokenPosition)),
      ((tps.flatMap fun e =>
          if e.1 = ac then []
          else e.2.filter fun x => decide (x.positionId = t)).map
        TokenPosition.tokenId).Sublist (allTokenIds tps) := by
  intro tps
  induction tps with
  | nil => simp
  | cons e rest ih =>
    obtain ⟨c0, toks0⟩ := e
    rw [List.flatMap_cons, List.map_append, allTokenIds_cons]
    apply List.Sublist.append ?_ ih
    by_cases hc : c0 = ac
    · rw [if_pos hc]
      simp
    · rw [if_neg hc]
      exact (List.filter_sublist toks0).map TokenPosition.tokenId

theorem detectCollision_ids_nodup (t : String) (ac : PlayerColor)
    (tps : List (PlayerColor × List TokenPosition))
    (hnd : (allTokenIds tps).Nodup) :
    ((detectCollision t ac tps).capturedTokens.map TokenPosition.tokenId).Nodup := by
  by_cases h : isSafeSpot t = true
  · rw [detectCollision_safe t ac tps h]
    simp
  · rw [detectCollision_capturedTokens t ac tps (Bool.not_eq_true _ ▸ h)]
    exact (captured_ids_sublist t ac tps).nodup hnd

theorem moveCapRes_fst (gs : GameState) (color : PlayerColor) (tid tgt : String) :
    (moveCapRes gs color tid tgt).1
      = (if (detectCollision tgt color
            (updateTokensAt gs.tokenPositions color tid tgt)).captured
         then applyCapturesTps
            (detectCollision tgt color
              (updateTokensAt gs.tokenPositions color tid tgt)).capturedTokens
            (updateTokensAt gs.tokenPositions color tid tgt)
         else updateTokensAt gs.tokenPositions color tid tgt) := by
  simp only [moveCapRes]
  split
  · exact applyCaptures_fst _ _
  · rfl

theorem moveCapRes_snd (gs : GameState) (color : PlayerColor) (tid tgt : String)
    (h : (detectCollision tgt color
        (updateTokensAt gs.tokenPositions color tid tgt)).captured = false) :
    (moveCapRes gs color tid tgt).2 = none := by
  simp only [moveCapRes, h, Bool.false_eq_true, if_false]

/-- moveToken under explicit guard equations reduces to applyMove. -/
theorem moveToken_eq_applyMove (gs : GameState) (pid tid tgt : String)
    (cp : Player) (d : Nat) (toks : List TokenPosition) (token : TokenPosition)
    (h1 : gs.players.get? gs.currentPlayerIndex = some cp)
    (h2 : cp.playerId = pid)
    (h3 : gs.phase = GamePhase.moving)
    (h4 : gs.diceValue = some d)
    (h5 : isValidTokenId tid cp.color = true)
    (h6 : lookupTokens gs.tokenPositions cp.color = some toks)
    (h7 : toks.find? (fun t => decide (t.tokenId = tid)) = some token)
    (h8 : (canMoveToken token.positionId d cp.color).valid = true)
    (h9 : (canMoveToken token.positionId d cp.color).targetPosition = some tgt) :
    moveToken gs pid tid tgt = applyMove gs cp d tid tgt token.positionId := by
  have h1g : gs.players[gs.currentPlayerIndex]? = some cp := by
    rw [← List.get?_eq_getElem?]
    exact h1
  simp [moveToken, h1g, h2, h3, h4, h5, h6, h7, h8, h9]

/-- C7: on a successful move, a safe-spot target captures nothing (no token of
any other color moves and no captured id is reported, the extra turn coming
only from a 6), while a non-safe target captures exactly the opposing tokens
standing on it: each goes back to its own base slot via getBasePosition, any
capture makes extraTurn true, and every other opposing token keeps its
position. -/
theorem C7_capture_exactly_opposing_tokens_on_target (gs : GameState)
    (pid tid tgt : String) (cp : Player) (d : Nat)
    (toks : List TokenPosition) (token : TokenPosition)
    (h1 : gs.players.get? gs.currentPlayerIndex = some cp)
    (h2 : cp.playerId = pid)
    (h3 : gs.phase = GamePhase.moving)
    (h4 : gs.diceValue = some d)
    (h5 : isValidTokenId tid cp.color = true)
    (h6 : lookupTokens gs.tokenPositions cp.color = some toks)
    (h7 : toks.find? (fun t => decide (t.tokenId = tid)) = some token)
    (h8 : (canMoveToken token.positionId d cp.color).valid = true)
    (h9 : (canMoveToken token.positionId d cp.color).targetPosition = some tgt)
    (hN : (allTokenIds gs.tokenPositions).Nodup) :
    ∃ s r, (moveToken gs pid tid tgt).saved = some s
      ∧ (moveToken gs pid tid tgt).result = some r
      ∧ (isSafeSpot tgt = true →
          r.capturedTokenId = none
          ∧ r.extraTurn = decide (d = 6)
          ∧ ∀ e ∈ gs.tokenPositions, e.1 ≠ cp.color → ∀ t ∈ e.2,
              posOf s.tokenPositions t.tokenId = some t.positionId)
      ∧ (isSafeSpot tgt = false →
          ∀ e ∈ gs.tokenPositions, e.1 ≠ cp.color → ∀ t ∈ e.2,
            (t.positionId = tgt →
              posOf s.tokenPositions t.tokenId
                  = some (getBasePosition t.tokenId e.1)
              ∧ r.extraTurn = true)
            ∧ (t.positionId ≠ tgt →
              posOf s.tokenPositions t.tokenId = some t.positionId)) := by
  rw [moveToken_eq_applyMove gs pid tid tgt cp d toks token h1 h2 h3 h4 h5 h6 h7 h8 h9,
    applyMove_eq]
  have htid : token.tokenId = tid := by
    have := List.find?_some h7
    simpa using this
  have hne_tid : ∀ e ∈ gs.tokenPositions, e.1 ≠ cp.color → ∀ t ∈ e.2,
      t.tokenId ≠ tid := by
    intro e he hene t ht heq
    rcases lookupTokens_exists gs.tokenPositions cp.color toks h6 with
      ⟨e0, he0, he0c, he0toks⟩
    have hown1 : ownerColor gs.tokenPositions t.tokenId = some e.1 :=
      ownerColor_mem gs.tokenPositions hN e he t ht
    have hown2 : ownerColor gs.tokenPositions token.tokenId = some cp.color := by
      rw [← he0c]
      exact ownerColor_mem gs.tokenPositions hN e0 he0 token (he0toks ▸
        List.mem_of_find?_eq_some h7)
    rw [heq, ← htid, hown2] at hown1
    refine hene ?_
    injection hown1 with hv
    exact hv.symm
  refine ⟨movedSavedState gs cp tid tgt, movedResult gs cp d tid tgt token.positionId,
    rfl, rfl, ?_, ?_⟩
  · intro hsafe
    have hcoll := detectCollision_safe tgt cp.color
      (updateTokensAt gs.tokenPositions cp.color tid tgt) hsafe
    refine ⟨?_, ?_, ?_⟩
    · show (moveCapRes gs cp.color tid tgt).2 = none
      exact moveCapRes_snd gs cp.color tid tgt (by rw [hcoll])
    · show (decide (d = 6) || (detectCollision tgt cp.color
          (updateTokensAt gs.tokenPositions cp.color tid tgt)).captured)
        = decide (d = 6)
      rw [hcoll]
      simp
    · intro e he hene t ht
      rw [movedSavedState_tokenPositions, moveCapRes_fst, hcoll]
      simp only [Bool.false_eq_true, if_false]
      rw [posOf_updateTokensAt_ne gs.tokenPositions cp.color tid tgt t.tokenId
        (hne_tid e he hene t ht)]
      exact posOf_mem gs.tokenPositions hN e he t ht
  · intro hnsafe e he hene t ht
    have he1 : e ∈ updateTokensAt gs.tokenPositions cp.color tid tgt :=
      updateTokensAt_mem_other gs.tokenPositions cp.color tid tgt e he hene
    have hnd1 : (allTokenIds (updateTokensAt gs.tokenPositions cp.color tid
        tgt)).Nodup := by
      rw [updateTokensAt_ids]
      exact hN
    constructor
    · intro hpos
      have hmem : t ∈ (detectCollision tgt cp.color
          (updateTokensAt gs.tokenPositions cp.color tid tgt)).capturedTokens :=
        (detectCollision_mem tgt cp.color _ hnsafe t).mpr ⟨e, he1, hene, ht, hpos⟩
      have hcap := detectCollision_captured_true tgt cp.color _ t hmem
      constructor
      · rw [movedSavedState_tokenPositions, moveCapRes_fst, hcap]
        simp only [if_true]
        apply posOf_applyCapturesTps_mem _ _
          (detectCollision_ids_nodup tgt cp.color _ hnd1) t hmem e.1
        exact ownerColor_mem _ hnd1 e he1 t ht
      · show (decide (d = 6) || (detectCollision tgt cp.color
            (updateTokensAt gs.tokenPositions cp.color tid tgt)).captured) = true
        rw [hcap]
        simp
    · intro hpos
      rw [movedSavedState_tokenPositions, moveCapRes_fst]
      have hbase : posOf (updateTokensAt gs.tokenPositions cp.color tid tgt)
          t.tokenId = some t.positionId := by
        rw [posOf_updateTokensAt_ne gs.tokenPositions cp.color tid tgt t.tokenId
          (hne_tid e he hene t ht)]
        exact posOf_mem gs.tokenPositions hN e he t ht
      by_cases hcap : (detectCollision tgt cp.color
          (updateTokensAt gs.tokenPositions cp.color tid tgt)).captured = true
      · rw [hcap]
        simp only [if_true]
        rw [posOf_applyCapturesTps_ne _ _ _ ?_]
        · exact hbase
        · intro ct hct heq
          rcases (detectCollision_mem tgt cp.color _ hnsafe ct).mp hct with
            ⟨e2, he2, he2ne, hcte2, hctpos⟩
          have hp1 : posOf (updateTokensAt gs.tokenPositions cp.color tid tgt)
              ct.tokenId = some ct.positionId :=
            posOf_mem _ hnd1 e2 he2 ct hcte2
          rw [heq, hbase] at hp1
          have hpe : t.positionId = ct.positionId := by injection hp1
          exact hpos (hpe ▸ hctpos)
      · rw [Bool.not_eq_true] at hcap
        rw [hcap]
        simp only [Bool.false_eq_true, if_false]
        exact hbase

/-- C7 witness: blue moves BT1 from B00 to R52 with dice 1 and captures red
RT1, which returns to its base slot R1 with an extra turn granted. -/
theorem C7_witness :
    (moveToken c7CaptureState "p0" "BT1" "R52").saved.map
        (fun s => posOf s.tokenPositions "RT1") = some (some "R1")
    ∧ (moveToken c7CaptureState "p0" "BT1" "R52").result.map
        MoveResult.extraTurn = some true := by
  rcases C7_capture_exactly_opposing_tokens_on_target c7CaptureState "p0" "BT1" "R52"
      bluePlayer 1
      [⟨"BT1", "B00"⟩, ⟨"BT2", "B1"⟩, ⟨"BT3", "B2"⟩, ⟨"BT4", "B3"⟩]
      ⟨"BT1", "B00"⟩ rfl rfl rfl rfl (by decide) rfl (by decide) (by decide)
      (by decide) (by decide) with ⟨s, r, hs, hr, _, hns⟩
  have h := (hns (by decide)
    (PlayerColor.red, [⟨"RT1", "R52"⟩, ⟨"RT2", "R2"⟩, ⟨"RT3", "R3"⟩, ⟨"RT4", "R4"⟩])
    (by decide) (by decide) ⟨"RT1", "R52"⟩ (by decide)).1 rfl
  constructor
  · rw [hs]
    have hp : posOf s.tokenPositions "RT1" = some "R1" := h.1.trans (by decide)
    simp [hp]
  · rw [hr]
    simp [h.2]

/-! Lemmas for the canMoveToken claim. -/

theorem paths_nodup (c : PlayerColor) : (TOKEN_PATHS c).Nodup := by
  cases c <;> decide

theorem base_isTokenInBase (c : PlayerColor) :
    ∀ p ∈ BASE_POSITIONS c, isTokenInBase p = true := by
  cases c <;> decide

theorem path_not_base (c : PlayerColor) :
    ∀ p ∈ TOKEN_PATHS c, isTokenInBase p = false := by
  cases c <;> decide

theorem nodup_indexOfPos :
    ∀ (l : List String) (i : Nat) (p : String), l.Nodup → l.get? i = some p →
      indexOfPos l p = some i := by
  intro l
  induction l with
  | nil =>
    intro i p _ h
    simp [List.get?] at h
  | cons x xs ih =>
    intro i p hnd hget
    cases i with
    | zero =>
      have hx : x = p := by
        injection hget
      subst hx
      simp [indexOfPos]
    | succ i =>
      have hget2 : xs.get? i = some p := hget
      have hpmem : p ∈ xs := List.get?_mem hget2
      have hnd2 := List.nodup_cons.mp hnd
      have hx : ¬x = p := fun h => hnd2.1 (h ▸ hpmem)
      simp only [indexOfPos, if_neg hx, ih i p hnd2.2 hget2]
      rfl

/-- C5: canMoveToken follows the board rules: from a base slot a move is valid
exactly on a 6 and targets the fixed start cell of the color; from path index i
a move is valid exactly when i + dice stays inside the path, targeting the cell
at i + dice, with no bouncing past home. -/
theorem C5_canMoveToken_rules (c : PlayerColor) (d : Nat) (p : String)
    (hd1 : 1 ≤ d) (hd6 : d ≤ 6) :
    (p ∈ BASE_POSITIONS c →
      ((canMoveToken p d c).valid = true ↔ d = 6)
      ∧ (canMoveToken p d c).targetPosition
        = (if d = 6 then some (START_POSITIONS c) else none))
    ∧ (∀ i, (TOKEN_PATHS c).get? i = some p →
      ((canMoveToken p d c).valid = true ↔ i + d < (TOKEN_PATHS c).length)
      ∧ (canMoveToken p d c).targetPosition
        = (if i + d < (TOKEN_PATHS c).length then (TOKEN_PATHS c).get? (i + d)
           else none)) := by
  constructor
  · intro hp
    have hb := base_isTokenInBase c p hp
    by_cases h6 : d = 6
    · simp [canMoveToken, hb, h6]
    · simp [canMoveToken, hb, h6]
  · intro i hi
    have hnb := path_not_base c p (List.get?_mem hi)
    have hidx := nodup_indexOfPos (TOKEN_PATHS c) i p (paths_nodup c) hi
    by_cases hlt : (TOKEN_PATHS c).length ≤ i + d
    · constructor
      · simp [canMoveToken, getTokenPath, hnb, hidx, hlt]
      · simp [canMoveToken, getTokenPath, hnb, hidx, hlt]
        rw [if_neg (by omega)]
    · constructor
      · simp [canMoveToken, getTokenPath, hnb, hidx, hlt]
        omega
      · simp [canMoveToken, getTokenPath, hnb, hidx, hlt]
        rw [if_pos (by omega)]

/-- C5 witness: the blue base slot B1 with a 6 moves out to the blue start
cell B04. -/
theorem C5_witness :
    (canMoveToken "B1" 6 PlayerColor.blue).valid = true
    ∧ (canMoveToken "B1" 6 PlayerColor.blue).targetPosition = some "B04" := by
  have h := (C5_canMoveToken_rules PlayerColor.blue 6 "B1" (by decide) (by decide)).1
    (by decide)
  exact ⟨h.1.mpr rfl, by simpa using h.2⟩

/-- C3 amended: the eligibility condition preferredPlayers >= size ||
preferredPlayers === size is equivalent to at-least-size, so a match of size N
forms iff at least N queued players have preferredPlayers >= N (and the queue
holds at least N players), taking the N oldest such players in queue order;
findMatch tries sizes 4, 3, 2 in order on queues of at least two players. -/
theorem C3_amended_eligibility_is_at_least_size (queue : List QueuedPlayer)
    (size : Nat) :
    ((findMatchBySize queue size).isSome = true
      ↔ size ≤ queue.length
        ∧ size ≤ (queue.filter fun p => decide (size ≤ p.preferredPlayers)).length)
    ∧ (∀ m, findMatchBySize queue size = some m →
        m = (queue.filter fun p => decide (size ≤ p.preferredPlayers)).take size
        ∧ m.length = size
        ∧ ∀ p ∈ m, size ≤ p.preferredPlayers)
    ∧ (∀ m, findMatch queue = some m →
        2 ≤ queue.length
        ∧ (findMatchBySize queue 4 = some m ∨ findMatchBySize queue 3 = some m
            ∨ findMatchBySize queue 2 = some m)) := by
  have hfeq : (queue.filter fun p =>
        decide (size ≤ p.preferredPlayers) || decide (p.preferredPlayers = size))
      = queue.filter fun p => decide (size ≤ p.preferredPlayers) := by
    apply List.filter_congr
    intro p _
    by_cases h : size ≤ p.preferredPlayers
    · simp [h]
    · simp [h]
      omega
  refine ⟨?_, ?_, ?_⟩
  · unfold findMatchBySize
    rw [hfeq]
    by_cases hlen : queue.length < size
    · simp [hlen]
    · simp [hlen]
      intro h
      omega
  · intro m hm
    unfold findMatchBySize at hm
    rw [hfeq] at hm
    by_cases hlen : queue.length < size
    · rw [if_pos hlen] at hm
      exact absurd hm (by simp)
    · rw [if_neg hlen] at hm
      by_cases helig : size ≤ (queue.filter fun p =>
          decide (size ≤ p.preferredPlayers)).length
      · rw [if_pos helig] at hm
        injection hm with hmeq
        subst hmeq
        refine ⟨rfl, ?_, ?_⟩
        · rw [List.length_take]
          omega
        · intro p hp
          have hmem : p ∈ queue.filter fun q => decide (size ≤ q.preferredPlayers) :=
            List.take_subset _ _ hp
          have := List.of_mem_filter hmem
          simpa using this
      · rw [if_neg helig] at hm
        exact absurd hm (by simp)
  · intro m hm
    unfold findMatch at hm
    by_cases hlen : queue.length < 2
    · rw [if_pos hlen] at hm
      exact absurd hm (by simp)
    · rw [if_neg hlen] at hm
      refine ⟨by omega, ?_⟩
      cases h4 : findMatchBySize queue 4 with
      | some m4 =>
        rw [h4] at hm
        injection hm with hmeq
        subst hmeq
        exact Or.inl rfl
      | none =>
        rw [h4] at hm
        cases h3 : findMatchBySize queue 3 with
        | some m3 =>
          rw [h3] at hm
          injection hm with hmeq
          subst hmeq
          exact Or.inr (Or.inl rfl)
        | none =>
          rw [h3] at hm
          exact Or.inr (Or.inr hm)

/-- C3 witness: the two-player queue [A prefers 4, B prefers 3] forms the
size-2 match of the two oldest eligible players. -/
theorem C3_witness :
    [queueA, queueB]
      = ([queueA, queueB].filter fun p => decide (2 ≤ p.preferredPlayers)).take 2 :=
  ((C3_amended_eligibility_is_at_least_size [queueA, queueB] 2).2.1
    [queueA, queueB] (by decide)).1

/-- C2 amended: a rolled 6 that is not the third consecutive six leads to an
extra turn only when the player has a legal move: the roll then stores dice 6
in phase MOVING with the index unchanged, and the following successful move
reports extraTurn and resets to ROLLING with dice cleared and the index still
unchanged. Without a legal move the roll instead reports skipTurn and persists
switchTurn of the stored state, advancing the turn. -/
theorem C2_amended_six_grants_extra_turn_only_with_move (gs : GameState)
    (pid : String) (cp : Player)
    (h1 : gs.players.get? gs.currentPlayerIndex = some cp)
    (h2 : cp.playerId = pid)
    (h3 : gs.phase = GamePhase.rolling)
    (h4 : gs.consecutiveSixes ≠ 2) :
    (∀ toks, lookupTokens gs.tokenPositions cp.color = some toks →
      checkValidMoves toks cp.color 6 = true →
      rollDice gs pid 6 = { success := true, diceValue := some 6,
                            skipTurn := some false,
                            saved := some { gs with
                              consecutiveSixes := gs.consecutiveSixes + 1,
                              diceValue := some 6, phase := GamePhase.moving } })
    ∧ (∀ toks, lookupTokens gs.tokenPositions cp.color = some toks →
      checkValidMoves toks cp.color 6 = false →
      rollDice gs pid 6 = { success := true, diceValue := some 6,
                            skipTurn := some true,
                            saved := some (switchTurn gs) })
    ∧ (∀ gs2 : GameState, ∀ pid2 tid tgt : String, ∀ s : GameState,
        gs2.diceValue = some 6 →
        (moveToken gs2 pid2 tid tgt).saved = some s →
        ∃ r, (moveToken gs2 pid2 tid tgt).result = some r
          ∧ r.extraTurn = true
          ∧ s.phase = GamePhase.rolling
          ∧ s.diceValue = none
          ∧ s.currentPlayerIndex = gs2.currentPlayerIndex) := by
  have h43 : gs.consecutiveSixes + 1 ≠ 3 := by omega
  have h1g : gs.players[gs.currentPlayerIndex]? = some cp := by
    rw [← List.get?_eq_getElem?]
    exact h1
  refine ⟨?_, ?_, ?_⟩
  · intro toks h6 hv
    simp [rollDice, h1g, h2, h3, h43, h6, hv]
  · intro toks h6 hv
    simp [rollDice, h1g, h2, h3, h43, h6, hv]
  · intro gs2 pid2 tid tgt s hdice h
    rcases moveToken_elim gs2 pid2 tid tgt with ⟨_, hn⟩ | ⟨cp2, d, toks, token, _, _,
      _, hd, _, _, _, _, _, heq⟩
    · rw [hn] at h
      exact absurd h (by simp)
    · rw [heq, applyMove_eq] at h ⊢
      simp only [Option.some.injEq] at h
      subst h
      refine ⟨movedResult gs2 cp2 d tid tgt token.positionId, rfl, ?_,
        movedSavedState_phase gs2 cp2 tid tgt,
        movedSavedState_diceValue gs2 cp2 tid tgt,
        movedSavedState_currentPlayerIndex gs2 cp2 tid tgt⟩
      have hd6 : d = 6 := by
        rw [hdice] at hd
        exact (Option.some.injEq _ _ ▸ hd).symm ▸ rfl
      simp [movedResult, hd6]

/-- C2 witness: blue rolls a 6 with no legal move; the second branch of the
amended claim applies and the persisted state is switchTurn of the stored
state. -/
theorem C2_witness :
    rollDice c2NoMoveState "p0" 6 = { success := true, diceValue := some 6,
                                       skipTurn := some true,
                                       saved := some (switchTurn c2NoMoveState) } :=
  (C2_amended_six_grants_extra_turn_only_with_move c2NoMoveState "p0" bluePlayer
      rfl rfl rfl (by decide)).2.1
    [⟨"BT1", "BF"⟩, ⟨"BT2", "BF"⟩, ⟨"BT3", "BF"⟩, ⟨"BT4", "B10"⟩] rfl (by decide)

/-- C6: the third consecutive six ends the turn at once: the roll reports
skipTurn, persists switchTurn of the stored state (counter reset to 0, dice
cleared) and, when another unfinished player exists, the turn moves to a
different player; and no moveToken changes the consecutive-six counter, so the
count survives intervening moves. -/
theorem C6_third_six_forfeits_turn (gs : GameState) (pid : String) (cp : Player)
    (h1 : gs.players.get? gs.currentPlayerIndex = some cp)
    (h2 : cp.playerId = pid)
    (h3 : gs.phase = GamePhase.rolling)
    (hcs : gs.consecutiveSixes = 2)
    (hc : gs.currentPlayerIndex < gs.players.length)
    (hother : ∃ j, j < gs.players.length ∧ j ≠ gs.currentPlayerIndex
      ∧ rankAt gs.players j = 0) :
    rollDice gs pid 6 = { success := true, diceValue := some 6,
                          skipTurn := some true, saved := some (switchTurn gs) }
    ∧ (switchTurn gs).consecutiveSixes = 0
    ∧ (switchTurn gs).diceValue = none
    ∧ (switchTurn gs).currentPlayerIndex ≠ gs.currentPlayerIndex
    ∧ (∀ gs2 : GameState, ∀ pid2 tid tgt : String, ∀ s : GameState,
        (moveToken gs2 pid2 tid tgt).saved = some s →
        s.consecutiveSixes = gs2.consecutiveSixes) := by
  refine ⟨?_, rfl, rfl, ?_, ?_⟩
  · have h1g : gs.players[gs.currentPlayerIndex]? = some cp := by
      rw [← List.get?_eq_getElem?]
      exact h1
    simp [rollDice, h1g, h2, h3, hcs]
  · show nextPlayerIndex gs.players gs.currentPlayerIndex ≠ gs.currentPlayerIndex
    rcases hother with ⟨j, hj, hjne, hj0⟩
    exact (nextPlayerIndex_rank_zero gs.players gs.currentPlayerIndex hc j hj
      hjne hj0).2
  · intro gs2 pid2 tid tgt s h
    exact (moveToken_saved_fields gs2 pid2 tid tgt s h).2.2.2

/-- C6 witness: blue on two consecutive sixes rolls a third six. -/
theorem C6_witness :
    rollDice c6SixesState "p0" 6 = { success := true, diceValue := some 6,
                                      skipTurn := some true,
                                      saved := some (switchTurn c6SixesState) } :=
  (C6_third_six_forfeits_turn c6SixesState "p0" bluePlayer rfl rfl rfl rfl
    (by decide) ⟨1, by decide, by decide, by decide⟩).1

/-- C9: whenever some player still has rank 0, the switchTurn scan lands on a
player with rank 0; and if every other player has finished, the index stays
where it was. -/
theorem C9_switchTurn_selects_unfinished (gs : GameState)
    (hc : gs.currentPlayerIndex < gs.players.length)
    (hex : ∃ j, j < gs.players.length ∧ rankAt gs.players j = 0) :
    rankAt (switchTurn gs).players (switchTurn gs).currentPlayerIndex = 0
    ∧ ((∀ j, j < gs.players.length → j ≠ gs.currentPlayerIndex →
          0 < rankAt gs.players j) →
        (switchTurn gs).currentPlayerIndex = gs.currentPlayerIndex) := by
  constructor
  · show rankAt gs.players (nextPlayerIndex gs.players gs.currentPlayerIndex) = 0
    rcases hex with ⟨j, hj, hj0⟩
    by_cases hjc : j = gs.currentPlayerIndex
    · subst hjc
      rcases nextPlayerIndex_stop gs.players gs.currentPlayerIndex hc with h | h
      · exact h
      · rw [h]
        exact hj0
    · exact (nextPlayerIndex_rank_zero gs.players gs.currentPlayerIndex hc j hj
        hjc hj0).1
  · intro hall
    show nextPlayerIndex gs.players gs.currentPlayerIndex = gs.currentPlayerIndex
    exact nextPlayerIndex_stay gs.players gs.currentPlayerIndex hc hall

/-- C9 witness: a two-player state with both players unfinished; after
switchTurn the selected player has rank 0. -/
theorem C9_witness :
    rankAt (switchTurn c2NoMoveState).players (switchTurn c2NoMoveState).currentPlayerIndex
      = 0 :=
  (C9_switchTurn_selects_unfinished c2NoMoveState (by decide)
    ⟨0, by decide, by decide⟩).1

/-- C10: the switchTurn do-while scan is fuel-indifferent beyond players.length
iterations, so the loop terminates after at most players.length steps; the
reached index is a stopping index (rank 0 or the starting index) and stays in
range. -/
theorem C10_switchTurn_scan_terminates (gs : GameState) (fuel : Nat)
    (hne : gs.players ≠ [])
    (hc : gs.currentPlayerIndex < gs.players.length)
    (hfuel : gs.players.length ≤ fuel) :
    switchLoop gs.players gs.currentPlayerIndex gs.currentPlayerIndex fuel
      = nextPlayerIndex gs.players gs.currentPlayerIndex
    ∧ (rankAt gs.players (switchTurn gs).currentPlayerIndex = 0
        ∨ (switchTurn gs).currentPlayerIndex = gs.currentPlayerIndex)
    ∧ (switchTurn gs).currentPlayerIndex < gs.players.length := by
  refine ⟨nextPlayerIndex_eq_of_le gs.players gs.currentPlayerIndex fuel hc hfuel,
    ?_, ?_⟩
  · show rankAt gs.players (nextPlayerIndex gs.players gs.currentPlayerIndex) = 0
      ∨ nextPlayerIndex gs.players gs.currentPlayerIndex = gs.currentPlayerIndex
    exact nextPlayerIndex_stop gs.players gs.currentPlayerIndex hc
  · show nextPlayerIndex gs.players gs.currentPlayerIndex < gs.players.length
    exact switchLoop_lt gs.players gs.currentPlayerIndex (by omega) _ _

/-- C10 witness: the two-player state, with surplus fuel 7. -/
theorem C10_witness :
    switchLoop c2NoMoveState.players c2NoMoveState.currentPlayerIndex
        c2NoMoveState.currentPlayerIndex 7
      = nextPlayerIndex c2NoMoveState.players c2NoMoveState.currentPlayerIndex :=
  (C10_switchTurn_scan_terminates c2NoMoveState 7 (by decide) (by decide)
    (by decide)).1

/-- C1: evaluation of the finishing move. The win is recorded, the remaining
player gets the last rank, but the persisted phase is ROLLING, not FINISHED:
the FINISHED assignment in the win branch is clobbered by the unconditional
phase reset before the save, so the claimed terminal FINISHED phase is never
persisted. -/
theorem C1_finishing_move_persists_rolling_phase :
    (moveToken c1FinishState "p0" "BT4" "BF").success = true
    ∧ ((moveToken c1FinishState "p0" "BT4" "BF").saved.map GameState.rankings)
        = some [{ playerId := "p0", rank := 1 }, { playerId := "p1", rank := 2 }]
    ∧ ((moveToken c1FinishState "p0" "BT4" "BF").saved.map
        fun s => s.players.map Player.rank) = some [1, 2]
    ∧ ((moveToken c1FinishState "p0" "BT4" "BF").saved.map GameState.phase)
        = some GamePhase.rolling
    ∧ GamePhase.rolling ≠ GamePhase.finished := by
  decide

/-- C2 counterexample: blue rolls a 6 in phase ROLLING but has no legal move;
the call reports skipTurn and the persisted currentPlayerIndex advances from 0
to 1, refuting the claim that a rolled 6 always leaves the current player index
unchanged. -/
theorem C2_counterexample_six_without_move_advances_turn :
    c2NoMoveState.currentPlayerIndex = 0
    ∧ (rollDice c2NoMoveState "p0" 6).success = true
    ∧ (rollDice c2NoMoveState "p0" 6).skipTurn = some true
    ∧ ((rollDice c2NoMoveState "p0" 6).saved.map GameState.currentPlayerIndex) = some 1
    ∧ (1 : Nat) ≠ 0 := by
  decide

/-- C3 counterexample: with queue [A prefers 4, B prefers 3], findMatch forms a
two-player match containing both, although neither has preferredPlayers equal
to 2; this refutes both the exact-preference membership condition and the
claimed formation condition of the claim. -/
theorem C3_counterexample_mixed_preferences_match :
    findMatch [queueA, queueB] = some [queueA, queueB]
    ∧ queueA.preferredPlayers = 4
    ∧ queueB.preferredPlayers = 3
    ∧ ([queueA, queueB].filter fun p => decide (p.preferredPlayers = 2)) = [] := by
  decide

/-- C4: evaluation of the disconnect, reconnect, timer-fire sequence. The
reconnect succeeds and restores CONNECTED, but because the handler cancels the
timer on a freshly constructed service instance, the singleton timer stays
armed, and when it fires the player is removed from the game despite the
in-grace reconnection; a reconnect attempted afterwards fails with no active
session. This contradicts the claim that an in-grace reconnect cancels the
pending removal. -/
theorem C4_reconnect_does_not_cancel_singleton_timer :
    (reconnectPlayer (handleDisconnection c4World "p1") "p1" "ROOM01" "sock2").1.success
      = true
    ∧ ((reconnectPlayer (handleDisconnection c4World "p1") "p1" "ROOM01" "sock2").2.game.players.map
        Player.connectionStatus)
        = [ConnectionStatus.connected, ConnectionStatus.connected]
    ∧ (reconnectPlayer (handleDisconnection c4World "p1") "p1" "ROOM01" "sock2").2.singletonTimers
        = ["p1"]
    ∧ ((fireDisconnectTimer
          (reconnectPlayer (handleDisconnection c4World "p1") "p1" "ROOM01" "sock2").2
          "p1").game.players.map Player.playerId) = ["p0"]
    ∧ (reconnectPlayer
          (fireDisconnectTimer
            (reconnectPlayer (handleDisconnection c4World "p1") "p1" "ROOM01" "sock2").2
            "p1")
          "p1" "ROOM01" "sock3").1
        = { success := false, error := some "No active session found for this room" } := by
  decide

end Ludo
